import Mathlib

/-!
Verification of the office-document reader core (Rust sources under `src/`).

The Rust functions are shallowly embedded: pure functions become Lean
functions, text is represented as `List Char` (UTF-8 byte offsets are
recovered with `Char.utf8Size`, which gives each character's encoded
byte length), machine integers become `Nat` (Rust `usize` parsing is
capped at `2 ^ 64`), fallible Rust functions returning `Result` become
`Except`.  External library calls (PDF engines, the file system, XML
parsing) are oracle parameters: the embedded control flow is translated
from the source, the oracles stand for the foreign calls' outcomes.
-/

namespace OfficeReader

/-- Rust strings (`&str` / `String`) are embedded as lists of characters. -/
abbrev Str := List Char

/-- Coerce a Lean string literal to the `Str` representation. -/
def str (s : String) : Str := s.data

instance {ε α : Type} [DecidableEq ε] [DecidableEq α] : DecidableEq (Except ε α)
  | .ok a, .ok b =>
    if h : a = b then .isTrue (by rw [h]) else .isFalse (by intro hh; cases hh; exact h rfl)
  | .ok _, .error _ => .isFalse (by intro h; cases h)
  | .error _, .ok _ => .isFalse (by intro h; cases h)
  | .error e, .error f =>
    if h : e = f then .isTrue (by rw [h]) else .isFalse (by intro hh; cases hh; exact h rfl)

/-- Rust `str::trim` (drop whitespace from the front). -/
def trimLeft : Str → Str
  | [] => []
  | c :: t => if c.isWhitespace then trimLeft t else c :: t

/-- Rust `str::trim`: whitespace dropped from both ends. -/
def rsTrim (cs : Str) : Str := ((trimLeft ((trimLeft cs).reverse)).reverse)

/-- Rust `str::split(sep)`: split at every occurrence of `sep`, keeping
empty fragments (`"".split(',')` yields `[""]`). -/
def rsSplitGo (sep : Char) : Str → Str → List Str
  | [], acc => [acc.reverse]
  | c :: t, acc => if c = sep then acc.reverse :: rsSplitGo sep t [] else rsSplitGo sep t (c :: acc)

/-- Rust `str::split(sep)`. -/
def rsSplit (sep : Char) (cs : Str) : List Str := rsSplitGo sep cs []

/-- Rust `str::to_lowercase` (ASCII-relevant part). -/
def rsToLower (cs : Str) : Str := cs.map Char.toLower

/-- Rust `str::contains(char)`. -/
def rsContains (cs : Str) (c : Char) : Bool := cs.contains c

/-- Rust `usize::from_str` on an already-trimmed string: an optional
leading `+`, then one or more ASCII digits, rejecting values that
overflow a 64-bit `usize`.  Embeds the `str::parse::<usize>()` calls of
`parse_pages_parameter` (`src/shared_utils.rs` lines 41-44, 65-66). -/
def parseUsize (s : Str) : Option Nat :=
  let cs := match s with
    | '+' :: rest => rest
    | other => other
  if cs = [] then none
  else if cs.all (fun c => c.isDigit) then
    let v := cs.foldl (fun acc c => acc * 10 + (c.toNat - '0'.toNat)) 0
    if v < 2 ^ 64 then some v else none
  else none

/-- `if !page_numbers.contains(&page) { page_numbers.push(page) }`
(`src/shared_utils.rs` lines 58-62, 76-78). -/
def pushUnique (acc : List Nat) (p : Nat) : List Nat :=
  if p ∈ acc then acc else acc ++ [p]

/-- `for page in start..=end { ... push if missing ... }`
(`src/shared_utils.rs` lines 58-62). -/
def addRange (acc : List Nat) (s e : Nat) : List Nat :=
  (List.range' s (e + 1 - s)).foldl pushUnique acc

/-- The body of the `for part in pages.split(',')` loop of
`parse_pages_parameter` (`src/shared_utils.rs` lines 31-80) for a single
comma-separated part, threading the accumulated page list and
propagating the loop's early `return Err(...)` as `Except.error`.
`processRangePart` is the `part.contains('-')` branch after the
two-parts length check, `processPart` the whole body. -/
def processRangePart (total : Nat) (acc : List Nat) (rp : List Str) : Except Str (List Nat) :=
  match parseUsize (rsTrim (rp.getD 0 [])) with
  | none => .error (str "Invalid page number: " ++ rp.getD 0 [])
  | some s =>
    match parseUsize (rsTrim (rp.getD 1 [])) with
    | none => .error (str "Invalid page number: " ++ rp.getD 1 [])
    | some e =>
      if s = 0 ∨ e = 0 then .error (str "Page numbers must start from 1")
      else if s > e then
        .error (str "Invalid range: " ++ (Nat.repr s).data ++ str " > " ++ (Nat.repr e).data)
      else if e > total then
        .error (str "Page " ++ (Nat.repr e).data ++ str " exceeds total pages (" ++
          (Nat.repr total).data ++ str ")")
      else .ok (addRange acc s e)

def processPart (total : Nat) (acc : List Nat) (part0 : Str) : Except Str (List Nat) :=
  if rsContains (rsTrim part0) '-' then
    if (rsSplit '-' (rsTrim part0)).length = 2 then
      processRangePart total acc (rsSplit '-' (rsTrim part0))
    else .error (str "Invalid range format: " ++ rsTrim part0)
  else
    match parseUsize (rsTrim part0) with
    | none => .error (str "Invalid page number: " ++ rsTrim part0)
    | some p =>
      if p = 0 then .error (str "Page numbers must start from 1")
      else if p > total then
        .error (str "Page " ++ (Nat.repr p).data ++ str " exceeds total pages (" ++
          (Nat.repr total).data ++ str ")")
      else .ok (pushUnique acc p)

/-- The whole `for part in pages.split(',')` loop. -/
def processParts (total : Nat) : List Str → List Nat → Except Str (List Nat)
  | [], acc => .ok acc
  | p :: rest, acc =>
    match processPart total acc p with
    | .error e => .error e
    | .ok acc2 => processParts total rest acc2

/-- `parse_pages_parameter` (`src/shared_utils.rs` lines 24-84; the
private copy in `src/document_parser.rs` lines 199-259 is textually
identical).  The final `page_numbers.sort()` is embedded as
`insertionSort (· ≤ ·)`: both are sorts of a duplicate-free list, and
sorted permutations of the same duplicate-free list coincide. -/
def parse_pages_parameter (pages : Str) (total_pages : Nat) : Except Str (List Nat) :=
  if rsTrim pages = [] ∨ rsToLower (rsTrim pages) = str "all" then
    .ok (List.range' 1 total_pages)
  else
    match processParts total_pages (rsSplit ',' pages) [] with
    | .error e => .error e
    | .ok acc => .ok (acc.insertionSort (· ≤ ·))

example : parse_pages_parameter (str "all") 5 = .ok [1, 2, 3, 4, 5] := by decide
example : parse_pages_parameter (str "") 3 = .ok [1, 2, 3] := by decide
example : parse_pages_parameter (str "5,1,3") 5 = .ok [1, 3, 5] := by decide
example : parse_pages_parameter (str "1,3-5") 5 = .ok [1, 3, 4, 5] := by decide
example : parse_pages_parameter (str "1-2,4,6-7") 10 = .ok [1, 2, 4, 6, 7] := by decide
example : parse_pages_parameter (str "1,1,2") 5 = .ok [1, 2] := by decide
example : parse_pages_parameter (str "1-3,2-4") 5 = .ok [1, 2, 3, 4] := by decide
example : (parse_pages_parameter (str "0") 5).isOk = false := by decide
example : (parse_pages_parameter (str "6") 5).isOk = false := by decide
example : (parse_pages_parameter (str "3-2") 5).isOk = false := by decide
example : (parse_pages_parameter (str "1-6") 5).isOk = false := by decide
example : (parse_pages_parameter (str "abc") 5).isOk = false := by decide
example : (parse_pages_parameter (str "1-2-3") 5).isOk = false := by decide
example : parse_pages_parameter (str "ALL") 2 = .ok [1, 2] := by decide
example : parse_pages_parameter (str " 2 , 1 ") 3 = .ok [1, 2] := by decide

/-! ## C1: properties of `parse_pages_parameter` -/

/-- All pages in the list lie in `[1, total]`. -/
def InRange (total : Nat) (l : List Nat) : Prop := ∀ p ∈ l, 1 ≤ p ∧ p ≤ total

theorem pushUnique_nodup {acc : List Nat} {p : Nat} (h : acc.Nodup) :
    (pushUnique acc p).Nodup := by
  unfold pushUnique
  split
  · exact h
  · next hmem => simpa [List.nodup_append] using ⟨h, hmem⟩

theorem mem_pushUnique {acc : List Nat} {p x : Nat} (h : x ∈ pushUnique acc p) :
    x ∈ acc ∨ x = p := by
  unfold pushUnique at h
  split at h
  · exact Or.inl h
  · simpa using h

theorem foldl_pushUnique_nodup (li : List Nat) :
    ∀ acc : List Nat, acc.Nodup → (li.foldl pushUnique acc).Nodup := by
  induction li with
  | nil => intro acc h; simpa using h
  | cons a t ih => intro acc h; exact ih _ (pushUnique_nodup h)

theorem mem_foldl_pushUnique (li : List Nat) :
    ∀ acc x, x ∈ li.foldl pushUnique acc → x ∈ acc ∨ x ∈ li := by
  induction li with
  | nil => intro acc x h; exact Or.inl (by simpa using h)
  | cons a t ih =>
    intro acc x h
    rcases ih _ x (by simpa using h) with h2 | h2
    · rcases mem_pushUnique h2 with h3 | h3
      · exact Or.inl h3
      · exact Or.inr (by simp [h3])
    · exact Or.inr (List.mem_cons_of_mem _ h2)

theorem addRange_nodup {acc : List Nat} {s e : Nat} (h : acc.Nodup) :
    (addRange acc s e).Nodup := foldl_pushUnique_nodup _ _ h

theorem mem_addRange {acc : List Nat} {s e x : Nat} (hse : s ≤ e)
    (h : x ∈ addRange acc s e) : x ∈ acc ∨ (s ≤ x ∧ x ≤ e) := by
  rcases mem_foldl_pushUnique _ _ _ h with h2 | h2
  · exact Or.inl h2
  · rw [List.mem_range'_1] at h2
    exact Or.inr ⟨h2.1, by omega⟩

theorem processRangePart_inv {total : Nat} {acc acc2 : List Nat} {rp : List Str}
    (h : acc.Nodup ∧ InRange total acc)
    (hok : processRangePart total acc rp = .ok acc2) :
    acc2.Nodup ∧ InRange total acc2 := by
  unfold processRangePart at hok
  cases h0 : parseUsize (rsTrim (rp.getD 0 [])) with
  | none => rw [h0] at hok; cases hok
  | some s =>
    cases h1 : parseUsize (rsTrim (rp.getD 1 [])) with
    | none => rw [h0, h1] at hok; cases hok
    | some e =>
      rw [h0, h1] at hok
      dsimp only at hok
      split at hok
      · cases hok
      · split at hok
        · cases hok
        · split at hok
          · cases hok
          · rename_i hz hle htot
            cases hok
            rw [not_or] at hz
            refine ⟨addRange_nodup h.1, fun x hx => ?_⟩
            rcases mem_addRange (by omega) hx with h2 | h2
            · exact h.2 x h2
            · have h1 : s ≠ 0 := hz.1
              exact ⟨by omega, by omega⟩

theorem processPart_inv {total : Nat} {acc acc2 : List Nat} {part : Str}
    (h : acc.Nodup ∧ InRange total acc)
    (hok : processPart total acc part = .ok acc2) :
    acc2.Nodup ∧ InRange total acc2 := by
  unfold processPart at hok
  split at hok
  · split at hok
    · exact processRangePart_inv h hok
    · cases hok
  · split at hok
    · cases hok
    · next p _ =>
      split at hok
      · cases hok
      · split at hok
        · cases hok
        · next h0 htot =>
          cases hok
          refine ⟨pushUnique_nodup h.1, fun x hx => ?_⟩
          rcases mem_pushUnique hx with h2 | h2
          · exact h.2 x h2
          · exact ⟨by omega, by omega⟩

theorem processParts_inv {total : Nat} (parts : List Str) :
    ∀ {acc acc2 : List Nat}, acc.Nodup ∧ InRange total acc →
      processParts total parts acc = .ok acc2 →
      acc2.Nodup ∧ InRange total acc2 := by
  induction parts with
  | nil =>
    intro acc acc2 h hok
    cases hok
    exact h
  | cons p rest ih =>
    intro acc acc2 h hok
    unfold processParts at hok
    split at hok
    · cases hok
    · next mid hmid => exact ih (processPart_inv h hmid) hok

/-- The violations `parse_pages_parameter` is claimed to reject, for one
(already-trimmed) comma-separated part: a non-integer single, a range
with other than exactly two `-`-separated parts, a zero value, an
inverted range, or a value exceeding the total. -/
def BadPart (total : Nat) (part : Str) : Prop :=
  (rsContains part '-' = false ∧ parseUsize part = none)
  ∨ (rsContains part '-' = true ∧ (rsSplit '-' part).length ≠ 2)
  ∨ (rsContains part '-' = false ∧ parseUsize part = some 0)
  ∨ (rsContains part '-' = true ∧ (rsSplit '-' part).length = 2 ∧
      (parseUsize (rsTrim ((rsSplit '-' part).getD 0 [])) = some 0 ∨
       parseUsize (rsTrim ((rsSplit '-' part).getD 1 [])) = some 0))
  ∨ (rsContains part '-' = true ∧ (rsSplit '-' part).length = 2 ∧
      ∃ s e, parseUsize (rsTrim ((rsSplit '-' part).getD 0 [])) = some s ∧
        parseUsize (rsTrim ((rsSplit '-' part).getD 1 [])) = some e ∧ s > e)
  ∨ (rsContains part '-' = false ∧ ∃ p, parseUsize part = some p ∧ p > total)
  ∨ (rsContains part '-' = true ∧ (rsSplit '-' part).length = 2 ∧
      ∃ e, parseUsize (rsTrim ((rsSplit '-' part).getD 1 [])) = some e ∧ e > total)

theorem processRangePart_bad0 {total : Nat} {acc : List Nat} {rp : List Str}
    (hp : parseUsize (rsTrim (rp.getD 0 [])) = some 0 ∨
      parseUsize (rsTrim (rp.getD 1 [])) = some 0) :
    ∃ e, processRangePart total acc rp = .error e := by
  unfold processRangePart
  cases h0 : parseUsize (rsTrim (rp.getD 0 [])) with
  | none => exact ⟨_, rfl⟩
  | some s =>
    cases h1 : parseUsize (rsTrim (rp.getD 1 [])) with
    | none => dsimp only; exact ⟨_, rfl⟩
    | some e =>
      have hz : s = 0 ∨ e = 0 := by
        rcases hp with hp | hp
        · rw [h0] at hp; exact Or.inl (by simpa using hp)
        · rw [h1] at hp; exact Or.inr (by simpa using hp)
      dsimp only
      rw [if_pos hz]
      exact ⟨_, rfl⟩

theorem processRangePart_badOrder {total : Nat} {acc : List Nat} {rp : List Str} {s e : Nat}
    (hs : parseUsize (rsTrim (rp.getD 0 [])) = some s)
    (he : parseUsize (rsTrim (rp.getD 1 [])) = some e) (hse : s > e) :
    ∃ e2, processRangePart total acc rp = .error e2 := by
  unfold processRangePart
  rw [hs, he]
  dsimp only
  by_cases hz : s = 0 ∨ e = 0
  · rw [if_pos hz]
    exact ⟨_, rfl⟩
  · rw [if_neg hz, if_pos hse]
    exact ⟨_, rfl⟩

theorem processRangePart_badTotal {total : Nat} {acc : List Nat} {rp : List Str} {e : Nat}
    (he : parseUsize (rsTrim (rp.getD 1 [])) = some e) (het : e > total) :
    ∃ e2, processRangePart total acc rp = .error e2 := by
  unfold processRangePart
  cases h0 : parseUsize (rsTrim (rp.getD 0 [])) with
  | none => exact ⟨_, rfl⟩
  | some s =>
    rw [he]
    dsimp only
    by_cases hz : s = 0 ∨ e = 0
    · rw [if_pos hz]
      exact ⟨_, rfl⟩
    · by_cases hse : s > e
      · rw [if_neg hz, if_pos hse]
        exact ⟨_, rfl⟩
      · rw [if_neg hz, if_neg hse, if_pos het]
        exact ⟨_, rfl⟩

theorem processPart_badPart {total : Nat} {acc : List Nat} {part : Str}
    (hbad : BadPart total (rsTrim part)) :
    ∃ e, processPart total acc part = .error e := by
  unfold processPart
  rcases hbad with ⟨hc, hp⟩ | ⟨hc, hl⟩ | ⟨hc, hp⟩ | ⟨hc, hl, hp⟩ | ⟨hc, hl, s, e, hs, he, hse⟩ |
    ⟨hc, p, hp, hpt⟩ | ⟨hc, hl, e, he, het⟩
  · rw [hc]
    simp only [Bool.false_eq_true, if_false, hp]
    exact ⟨_, rfl⟩
  · rw [hc]
    simp only [if_true, if_neg hl]
    exact ⟨_, rfl⟩
  · rw [hc]
    simp only [Bool.false_eq_true, if_false, hp]
    rw [if_pos trivial]
    exact ⟨_, rfl⟩
  · rw [hc]
    simp only [if_true, if_pos hl]
    exact processRangePart_bad0 hp
  · rw [hc]
    simp only [if_true, if_pos hl]
    exact processRangePart_badOrder hs he hse
  · rw [hc]
    simp only [Bool.false_eq_true, if_false, hp]
    have h0 : ¬ p = 0 := by omega
    rw [if_neg h0, if_pos hpt]
    exact ⟨_, rfl⟩
  · rw [hc]
    simp only [if_true, if_pos hl]
    exact processRangePart_badTotal he het

theorem processParts_badPart {total : Nat} (parts : List Str) :
    ∀ acc, ∀ part ∈ parts, BadPart total (rsTrim part) →
      ∃ e, processParts total parts acc = .error e := by
  induction parts with
  | nil => intro acc part h; cases h
  | cons p rest ih =>
    intro acc part hmem hbad
    unfold processParts
    rcases List.mem_cons.mp hmem with rfl | hmem2
    · rcases @processPart_badPart total acc part hbad with ⟨e, he⟩
      rw [he]
      exact ⟨e, rfl⟩
    · cases hmid : processPart total acc p
      · exact ⟨_, rfl⟩
      · next acc2 => exact ih acc2 part hmem2 hbad

/-- C1. `parse_pages_parameter` returns `Ok` only with a sorted,
duplicate-free list whose every element lies in `[1, total]`; an empty
or case-insensitive "all" spec yields `[1, 2, ..., total]`; a comma part
that is not a positive integer, a range with other than exactly two
`-`-separated parts, the value 0, an inverted range, or a value
exceeding the total makes the whole call return `Err`. -/
theorem C1_parse_pages_parameter_spec (pages : Str) (total : Nat) :
    (∀ l, parse_pages_parameter pages total = .ok l →
       l.Sorted (· ≤ ·) ∧ l.Nodup ∧ InRange total l) ∧
    (rsTrim pages = [] ∨ rsToLower (rsTrim pages) = str "all" →
       parse_pages_parameter pages total = .ok (List.range' 1 total)) ∧
    (¬(rsTrim pages = [] ∨ rsToLower (rsTrim pages) = str "all") →
      ∀ part ∈ rsSplit ',' pages, BadPart total (rsTrim part) →
        ∃ e, parse_pages_parameter pages total = .error e) := by
  refine ⟨?_, ?_, ?_⟩
  · intro l hok
    unfold parse_pages_parameter at hok
    split at hok
    · cases hok
      refine ⟨(List.pairwise_lt_range' 1 total).imp (fun h => Nat.le_of_lt h),
        List.nodup_range' .., fun p hp => ?_⟩
      rw [List.mem_range'_1] at hp
      exact ⟨hp.1, by omega⟩
    · split at hok
      · cases hok
      · next acc hacc =>
        cases hok
        have hinv : acc.Nodup ∧ InRange total acc :=
          processParts_inv _ ⟨List.nodup_nil, by intro p hp; cases hp⟩ hacc
        have hperm : (acc.insertionSort (· ≤ ·)).Perm acc := List.perm_insertionSort (· ≤ ·) acc
        refine ⟨List.sorted_insertionSort (· ≤ ·) acc, hperm.nodup_iff.mpr hinv.1,
          fun p hp => hinv.2 p (hperm.mem_iff.mp hp)⟩
  · intro h
    unfold parse_pages_parameter
    rw [if_pos h]
  · intro h part hmem hbad
    unfold parse_pages_parameter
    rw [if_neg h]
    rcases processParts_badPart (rsSplit ',' pages) [] part hmem hbad with ⟨e, he⟩
    rw [he]
    exact ⟨e, rfl⟩

/-- Witness for C1 at concrete inputs. -/
theorem C1_parse_pages_parameter_spec_witness :
    ([1, 3, 5].Sorted (· ≤ ·) ∧ [1, 3, 5].Nodup ∧ InRange 5 [1, 3, 5]) ∧
    (parse_pages_parameter (str "ALL") 4 = .ok (List.range' 1 4)) ∧
    (∃ e, parse_pages_parameter (str "1-2-3") 5 = .error e) :=
  ⟨(C1_parse_pages_parameter_spec (str "5,1,3") 5).1 [1, 3, 5] (by decide),
   (C1_parse_pages_parameter_spec (str "ALL") 4).2.1 (Or.inr (by decide)),
   (C1_parse_pages_parameter_spec (str "1-2-3") 5).2.2 (by decide) (str "1-2-3")
     (by decide) (Or.inr (Or.inl (by decide)))⟩

/-! ## UTF-8 byte offsets: `char_indices` construction and byte slicing -/

/-- Rust `String::len`: the UTF-8 byte length of a string. -/
def byteLen : Str → Nat
  | [] => 0
  | c :: t => c.utf8Size + byteLen t

/-- The `for ch in full_text.chars() { char_indices.push(byte_pos); byte_pos += ch.len_utf8(); }`
loop followed by `char_indices.push(byte_pos)`, with `byte_pos` starting
at `pos` (`src/shared_utils.rs` lines 107-114, `src/streaming_parser.rs`
lines 102-109, `src/powerpoint_parser.rs` lines 214-221: the three
loops are textually identical). -/
def computeCharIndicesGo (pos : Nat) : Str → List Nat
  | [] => [pos]
  | c :: t => pos :: computeCharIndicesGo (pos + c.utf8Size) t

/-- The `char_indices` vector built for a string, starting at byte 0. -/
def computeCharIndices (cs : Str) : List Nat := computeCharIndicesGo 0 cs

/-- Rust byte slicing `&s[a..b]` for byte positions `a ≤ b` lying on
character boundaries: keeps exactly the characters whose encoding lies
inside `[a, b)`; `pos` is the byte offset of the first character of the
remaining list. -/
def sliceBytesGo (a b : Nat) : Str → Nat → Str
  | [], _ => []
  | c :: t, pos =>
    (if a ≤ pos ∧ pos + c.utf8Size ≤ b then [c] else []) ++ sliceBytesGo a b t (pos + c.utf8Size)

/-- Rust `&s[a..b]` on boundary positions. -/
def sliceBytes (cs : Str) (a b : Nat) : Str := sliceBytesGo a b cs 0

theorem byteLen_append (a b : Str) : byteLen (a ++ b) = byteLen a + byteLen b := by
  induction a with
  | nil => simp [byteLen]
  | cons c t ih => simp [byteLen, ih]; omega

theorem byteLen_take_le (cs : Str) : ∀ i, byteLen (cs.take i) ≤ byteLen cs := by
  intro i
  conv_rhs => rw [← List.take_append_drop i cs]
  rw [byteLen_append]
  omega

theorem byteLen_take_mono (cs : Str) {i j : Nat} (hij : i ≤ j) :
    byteLen (cs.take i) ≤ byteLen (cs.take j) := by
  rcases Nat.exists_eq_add_of_le hij with ⟨k, rfl⟩
  rw [List.take_add, byteLen_append]
  omega

theorem computeCharIndicesGo_length (cs : Str) :
    ∀ pos, (computeCharIndicesGo pos cs).length = cs.length + 1 := by
  induction cs with
  | nil => intro pos; rfl
  | cons c t ih => intro pos; simp [computeCharIndicesGo, ih]

theorem computeCharIndicesGo_getD (cs : Str) :
    ∀ pos i, i ≤ cs.length →
      (computeCharIndicesGo pos cs).getD i 0 = pos + byteLen (cs.take i) := by
  induction cs with
  | nil =>
    intro pos i hi
    have hi0 : i = 0 := by simpa using hi
    subst hi0
    simp [computeCharIndicesGo, byteLen]
  | cons c t ih =>
    intro pos i hi
    cases i with
    | zero => simp [computeCharIndicesGo, byteLen]
    | succ i2 =>
      simp only [computeCharIndicesGo, List.getD_cons_succ, List.take_succ_cons, byteLen]
      rw [ih _ i2 (by simpa using hi)]
      omega

theorem computeCharIndicesGo_head (cs : Str) (pos : Nat) :
    (computeCharIndicesGo pos cs).head? = some pos := by
  cases cs <;> rfl

theorem computeCharIndicesGo_chain (cs : Str) :
    ∀ pos, List.Chain' (· ≤ ·) (computeCharIndicesGo pos cs) := by
  induction cs with
  | nil => intro pos; simp [computeCharIndicesGo]
  | cons c t ih =>
    intro pos
    unfold computeCharIndicesGo
    rw [List.chain'_cons']
    refine ⟨fun y hy => ?_, ih _⟩
    rw [computeCharIndicesGo_head] at hy
    have hy2 : y = pos + c.utf8Size := by simpa [eq_comm] using hy
    omega

theorem computeCharIndicesGo_getLast (cs : Str) :
    ∀ pos, (computeCharIndicesGo pos cs).getLast? = some (pos + byteLen cs) := by
  induction cs with
  | nil => intro pos; simp [computeCharIndicesGo, byteLen]
  | cons c t ih =>
    intro pos
    unfold computeCharIndicesGo
    rw [List.getLast?_cons, ih (pos + c.utf8Size)]
    simp [byteLen]
    omega

theorem sliceBytesGo_nil_of_le (cs : Str) :
    ∀ a b pos, b ≤ pos → sliceBytesGo a b cs pos = [] := by
  induction cs with
  | nil => intro a b pos _; rfl
  | cons c t ih =>
    intro a b pos hb
    have hsz := c.utf8Size_pos
    unfold sliceBytesGo
    rw [if_neg (by omega), ih a b _ (by omega)]
    rfl

theorem sliceBytesGo_take (cs : Str) :
    ∀ j a pos, a ≤ pos → j ≤ cs.length →
      sliceBytesGo a (pos + byteLen (cs.take j)) cs pos = cs.take j := by
  induction cs with
  | nil =>
    intro j a pos _ hj
    have hj0 : j = 0 := by simpa using hj
    subst hj0
    rfl
  | cons c t ih =>
    intro j a pos ha hj
    have hsz := c.utf8Size_pos
    cases j with
    | zero =>
      simp only [List.take_zero, byteLen, Nat.add_zero]
      exact sliceBytesGo_nil_of_le _ _ _ _ (Nat.le_refl _)
    | succ j2 =>
      simp only [List.take_succ_cons, byteLen]
      unfold sliceBytesGo
      have hbl : byteLen (List.take j2 t) ≥ 0 := Nat.zero_le _
      rw [if_pos ⟨ha, by omega⟩]
      have := ih j2 a (pos + c.utf8Size) (by omega) (by simpa using hj)
      rw [show pos + (c.utf8Size + byteLen (List.take j2 t)) =
        pos + c.utf8Size + byteLen (List.take j2 t) by omega, this]
      rfl

theorem sliceBytesGo_take_drop (cs : Str) :
    ∀ i j pos, i ≤ j → j ≤ cs.length →
      sliceBytesGo (pos + byteLen (cs.take i)) (pos + byteLen (cs.take j)) cs pos =
        (cs.drop i).take (j - i) := by
  induction cs with
  | nil =>
    intro i j pos hij hj
    have hj0 : j = 0 := by simpa using hj
    subst hj0
    have hi0 : i = 0 := by omega
    subst hi0
    rfl
  | cons c t ih =>
    intro i j pos hij hj
    have hsz := c.utf8Size_pos
    cases i with
    | zero =>
      simp only [List.take_zero, byteLen, Nat.add_zero, List.drop_zero, Nat.sub_zero]
      exact sliceBytesGo_take _ j _ pos (Nat.le_refl pos) hj
    | succ i2 =>
      cases j with
      | zero => omega
      | succ j2 =>
        simp only [List.take_succ_cons, byteLen, List.drop_succ_cons, Nat.succ_sub_succ]
        unfold sliceBytesGo
        rw [if_neg (by omega)]
        have := ih i2 j2 (pos + c.utf8Size) (by omega) (by simpa using hj)
        rw [show pos + (c.utf8Size + byteLen (List.take i2 t)) =
          pos + c.utf8Size + byteLen (List.take i2 t) by omega]
        rw [show pos + (c.utf8Size + byteLen (List.take j2 t)) =
          pos + c.utf8Size + byteLen (List.take j2 t) by omega]
        rw [this]
        rfl

/-- Byte slicing a whole string at character boundary offsets `i ≤ j`
yields the characters `i` to `j`. -/
theorem sliceBytes_take_drop (cs : Str) {i j : Nat} (hij : i ≤ j) (hj : j ≤ cs.length) :
    sliceBytes cs (byteLen (cs.take i)) (byteLen (cs.take j)) = (cs.drop i).take (j - i) := by
  have := sliceBytesGo_take_drop cs i j 0 hij hj
  simpa [sliceBytes] using this

/-! ## Cached artifacts (C8, C5) -/

/-- `PdfCache` (`src/shared_utils.rs` lines 8-13). -/
structure PdfCache where
  content : Str
  char_indices : List Nat
  total_pages : Option Nat
deriving DecidableEq

/-- The private `PdfCache` of the streaming parser
(`src/streaming_parser.rs` lines 10-14): no page count. -/
structure StreamingPdfCache where
  content : Str
  char_indices : List Nat

/-- `PowerPointCache` (`src/powerpoint_parser.rs` lines 14-20); the
per-slide text map is an association list keyed by 1-based slide
number. -/
structure PowerPointCache where
  content : Str
  char_indices : List Nat
  total_slides : Option Nat
  slide_texts : List (Nat × Str)

/-- Cache-artifact construction in `get_or_cache_pdf_content`
(`src/shared_utils.rs` lines 106-120), given the oracle results of
`FastPdfExtractor::extract_text` (`full_text`) and
`FastPdfExtractor::get_page_count` (`total_pages`, `None` when page
counting failed). -/
def mkPdfCache (full_text : Str) (total_pages : Option Nat) : PdfCache :=
  { content := full_text
    char_indices := computeCharIndices full_text
    total_pages := total_pages }

/-- Cache-artifact construction in the streaming parser's
`get_or_cache_pdf_content` (`src/streaming_parser.rs` lines 101-114). -/
def mkStreamingPdfCache (full_text : Str) : StreamingPdfCache :=
  { content := full_text
    char_indices := computeCharIndices full_text }

/-- `format!("# {}\n\n", file_name)`. -/
def fileHeader (file_name : Str) : Str := str "# " ++ file_name ++ str "\n\n"

/-- `extract_powerpoint_content` (`src/powerpoint_parser.rs` lines
206-229), given the oracle result `(all_text, slide_texts)` of
`extract_powerpoint_text_manual` and the file name of the path. -/
def extract_powerpoint_content (file_name all_text : Str) (slide_texts : List (Nat × Str)) :
    PowerPointCache :=
  { content := fileHeader file_name ++ all_text
    char_indices := computeCharIndices (fileHeader file_name ++ all_text)
    total_slides := some slide_texts.length
    slide_texts := slide_texts }

/-- The claimed `char_indices` well-formedness: entry `i` is the byte
offset of the start of character `i`, the vector has one entry per
character plus a final one, entries are non-decreasing, and the last
entry is the byte length of the content. -/
def CharIndicesInvariant (content : Str) (idx : List Nat) : Prop :=
  idx.length = content.length + 1 ∧
  (∀ i, i ≤ content.length → idx.getD i 0 = byteLen (content.take i)) ∧
  List.Chain' (· ≤ ·) idx ∧
  idx.getLast? = some (byteLen content)

theorem computeCharIndices_invariant (cs : Str) :
    CharIndicesInvariant cs (computeCharIndices cs) :=
  ⟨computeCharIndicesGo_length cs 0,
   fun i hi => by simpa using computeCharIndicesGo_getD cs 0 i hi,
   computeCharIndicesGo_chain cs 0,
   by simpa using computeCharIndicesGo_getLast cs 0⟩

/-- C8. Every cached artifact built by the PDF, streaming-PDF and
PowerPoint cache-population functions satisfies the `char_indices`
invariant: entry `i` is the byte offset of the start of the `i`-th
character of the content, the length is the character count plus one,
the entries are non-decreasing, and the last entry is the byte length
of the content. -/
theorem C8_cache_population_char_indices_invariant :
    (∀ (full_text : Str) (total_pages : Option Nat),
      CharIndicesInvariant (mkPdfCache full_text total_pages).content
        (mkPdfCache full_text total_pages).char_indices) ∧
    (∀ full_text : Str,
      CharIndicesInvariant (mkStreamingPdfCache full_text).content
        (mkStreamingPdfCache full_text).char_indices) ∧
    (∀ (file_name all_text : Str) (slide_texts : List (Nat × Str)),
      CharIndicesInvariant (extract_powerpoint_content file_name all_text slide_texts).content
        (extract_powerpoint_content file_name all_text slide_texts).char_indices) :=
  ⟨fun t _ => computeCharIndices_invariant t,
   fun t => computeCharIndices_invariant t,
   fun _ _ _ => computeCharIndices_invariant _⟩

/-- Witness for C8 at concrete inputs (the `é` makes offsets and
character indices differ). -/
theorem C8_cache_population_char_indices_invariant_witness :
    ((mkPdfCache (str "héllo") (some 1)).char_indices.getD 2 0 =
      byteLen ((mkPdfCache (str "héllo") (some 1)).content.take 2)) ∧
    CharIndicesInvariant (mkStreamingPdfCache (str "ab")).content
      (mkStreamingPdfCache (str "ab")).char_indices :=
  ⟨(C8_cache_population_char_indices_invariant.1 (str "héllo") (some 1)).2.1 2 (by decide),
   C8_cache_population_char_indices_invariant.2.1 (str "ab")⟩

/-! ## C5: `extract_char_range_from_cache` -/

/-- `extract_char_range_from_cache` (`src/shared_utils.rs` lines
153-175; the macro-generated copy in `src/cache_system.rs` lines
148-171 is the same code over any cacheable artifact).
`total_chars` is `char_indices.len().saturating_sub(1)` (Lean `Nat`
subtraction saturates); the in-bounds vector indexing of the source is
rendered with `getD`. -/
def extract_char_range_from_cache (pdf_cache : PdfCache) (start_char end_char : Nat) :
    Except Str Str :=
  if start_char ≥ pdf_cache.char_indices.length - 1 then .ok []
  else
    .ok (sliceBytes pdf_cache.content
      (pdf_cache.char_indices.getD start_char 0)
      (if min end_char (pdf_cache.char_indices.length - 1) < pdf_cache.char_indices.length
        then pdf_cache.char_indices.getD (min end_char (pdf_cache.char_indices.length - 1)) 0
        else byteLen pdf_cache.content))

example :
    extract_char_range_from_cache (mkPdfCache (str "Hello, world! This is a test.") (some 1)) 0 5 =
      .ok (str "Hello") := by decide
example :
    extract_char_range_from_cache (mkPdfCache (str "Hello, world! This is a test.") (some 1)) 7 12 =
      .ok (str "world") := by decide

theorem extract_char_range_eval (c : PdfCache)
    (hwf : c.char_indices = computeCharIndices c.content)
    {s e : Nat} (hs : s < c.content.length) (hse : s ≤ e) (he : e ≤ c.content.length) :
    extract_char_range_from_cache c s e = .ok ((c.content.drop s).take (e - s)) := by
  have hlen : c.char_indices.length = c.content.length + 1 := by
    rw [hwf]; exact computeCharIndicesGo_length c.content 0
  have hgetD : ∀ i, i ≤ c.content.length →
      c.char_indices.getD i 0 = byteLen (c.content.take i) := by
    intro i hi; rw [hwf]; simpa using computeCharIndicesGo_getD c.content 0 i hi
  unfold extract_char_range_from_cache
  rw [if_neg (by omega)]
  have hmin : min e (c.char_indices.length - 1) = e := by omega
  rw [hmin, if_pos (by omega), hgetD s (by omega), hgetD e he,
    sliceBytes_take_drop c.content hse he]

/-- C5. For a cached artifact with well-formed `char_indices`:
extracting `[0, total_chars)` returns the full content; any start at or
past `total_chars` returns `Ok` with the empty string, never an error;
and for `start ≤ end ≤ total_chars` the byte length of the result is
`char_indices[end] - char_indices[start]`. -/
theorem C5_extract_char_range_spec (c : PdfCache)
    (hwf : c.char_indices = computeCharIndices c.content) :
    (extract_char_range_from_cache c 0 (c.char_indices.length - 1) = .ok c.content) ∧
    (∀ s e, s ≥ c.char_indices.length - 1 →
      extract_char_range_from_cache c s e = .ok []) ∧
    (∀ s e, s ≤ e → e ≤ c.char_indices.length - 1 →
      ∃ out, extract_char_range_from_cache c s e = .ok out ∧
        byteLen out = c.char_indices.getD e 0 - c.char_indices.getD s 0) := by
  have hlen : c.char_indices.length = c.content.length + 1 := by
    rw [hwf]; exact computeCharIndicesGo_length c.content 0
  have hgetD : ∀ i, i ≤ c.content.length →
      c.char_indices.getD i 0 = byteLen (c.content.take i) := by
    intro i hi; rw [hwf]; simpa using computeCharIndicesGo_getD c.content 0 i hi
  refine ⟨?_, ?_, ?_⟩
  · by_cases h0 : c.content.length = 0
    · have hcontent : c.content = [] := List.length_eq_zero.mp h0
      unfold extract_char_range_from_cache
      rw [if_pos (by omega), hcontent]
    · have h1 := @extract_char_range_eval c hwf 0 c.content.length
        (by omega) (by omega) (by omega)
      rw [show c.char_indices.length - 1 = c.content.length by omega, h1]
      simp
  · intro s e hs
    unfold extract_char_range_from_cache
    rw [if_pos (by omega)]
  · intro s e hse he
    by_cases hs : s < c.content.length
    · refine ⟨(c.content.drop s).take (e - s),
        extract_char_range_eval c hwf hs hse (by omega), ?_⟩
      have hsplit : byteLen (c.content.take e) =
          byteLen (c.content.take s) + byteLen ((c.content.drop s).take (e - s)) := by
        rw [show e = s + (e - s) by omega, List.take_add, byteLen_append]
        rw [show s + (e - s) - s = e - s by omega]
      rw [hgetD e (by omega), hgetD s (by omega)]
      omega
    · have hs2 : s = c.content.length := by omega
      have he2 : e = c.content.length := by omega
      refine ⟨[], ?_, by subst hs2; subst he2; simp [byteLen]⟩
      unfold extract_char_range_from_cache
      rw [if_pos (by omega)]

/-- Witness for C5 at a concrete cache (multi-byte characters included). -/
theorem C5_extract_char_range_spec_witness :
    (extract_char_range_from_cache (mkPdfCache (str "héllo wörld") (some 1)) 0
      ((mkPdfCache (str "héllo wörld") (some 1)).char_indices.length - 1) =
        .ok (mkPdfCache (str "héllo wörld") (some 1)).content) ∧
    (extract_char_range_from_cache (mkPdfCache (str "héllo wörld") (some 1)) 99 3 = .ok []) ∧
    (∃ out,
      extract_char_range_from_cache (mkPdfCache (str "héllo wörld") (some 1)) 2 7 = .ok out ∧
        byteLen out = (mkPdfCache (str "héllo wörld") (some 1)).char_indices.getD 7 0 -
          (mkPdfCache (str "héllo wörld") (some 1)).char_indices.getD 2 0) :=
  ⟨(C5_extract_char_range_spec (mkPdfCache (str "héllo wörld") (some 1)) rfl).1,
   (C5_extract_char_range_spec (mkPdfCache (str "héllo wörld") (some 1)) rfl).2.1 99 3 (by decide),
   (C5_extract_char_range_spec (mkPdfCache (str "héllo wörld") (some 1)) rfl).2.2 2 7 (by decide)
     (by decide)⟩

/-! ## C7: the PDF streaming chunker (`src/streaming_parser.rs`) -/

/-- `ProcessingProgress` (`src/streaming_parser.rs` lines 24-31):
`current_page` carries the character cursor for the PDF stream. -/
structure ProcessingProgress where
  current_page : Nat
  total_pages : Option Nat
  current_chunk : Str
  is_complete : Bool
  error : Option Str

/-- `char_indices.len().saturating_sub(1)` — the cached character
count (`src/streaming_parser.rs` line 138). -/
def totalCharsOf (cache : StreamingPdfCache) : Nat := cache.char_indices.length - 1

/-- The chunk byte-slice `&pdf_cache.content[start_byte..end_byte]`
(`src/streaming_parser.rs` lines 167-175). -/
def chunkTextOf (cache : StreamingPdfCache) (start_char end_char : Nat) : Str :=
  sliceBytes cache.content (cache.char_indices.getD start_char 0)
    (if end_char < cache.char_indices.length then cache.char_indices.getD end_char 0
     else byteLen cache.content)

/-- `chunk_text[..chunk_text.rfind(' ')]`: the characters strictly
before the last space, `none` when there is no space (`rfind` on the
1-byte ASCII space always lands on a character boundary). -/
def beforeLastSpace : Str → Option Str
  | [] => none
  | c :: t =>
    match beforeLastSpace t with
    | some r => some (c :: r)
    | none => if c = ' ' then some [] else none

/-- `std::cmp::max(max_chars / 10, 50)` (`src/streaming_parser.rs` line 182). -/
def minProgressFloor (max_chars : Nat) : Nat := max (max_chars / 10) 50

/-- The word-boundary backoff (`src/streaming_parser.rs` lines 177-194)
applied to an extracted chunk. -/
def finalChunkAux (cache : StreamingPdfCache) (max_chars end_char : Nat) (chunk : Str) : Str :=
  if end_char < totalCharsOf cache then
    match beforeLastSpace chunk with
    | some wb => if wb.length ≥ minProgressFloor max_chars then wb else chunk
    | none => chunk
  else chunk

/-- The final chunk selected for the step starting at `start_char`. -/
def finalChunkOf (cache : StreamingPdfCache) (max_chars start_char : Nat) : Str :=
  finalChunkAux cache max_chars (min (start_char + max_chars) (totalCharsOf cache))
    (chunkTextOf cache start_char (min (start_char + max_chars) (totalCharsOf cache)))

/-- `actual_end` before the safety check (`src/streaming_parser.rs` line 200). -/
def rawEndOf (cache : StreamingPdfCache) (max_chars start_char : Nat) : Nat :=
  start_char + (finalChunkOf cache max_chars start_char).length

/-- `actual_end` after the forced-progress safety check
(`src/streaming_parser.rs` lines 203-209). -/
def adjustedEndOf (cache : StreamingPdfCache) (max_chars start_char : Nat) : Nat :=
  if rawEndOf cache max_chars start_char ≤ start_char ∧
      rawEndOf cache max_chars start_char < totalCharsOf cache
  then min (start_char + 1) (totalCharsOf cache)
  else rawEndOf cache max_chars start_char

/-- `process_pdf_chunk` (`src/streaming_parser.rs` lines 126-222) after
a successful `get_or_cache_pdf_content`, with the cached artifact as
input and `file_name` the file name of the path. -/
def process_pdf_chunk (file_name : Str) (cache : StreamingPdfCache)
    (max_chars start_char : Nat) : ProcessingProgress :=
  if start_char ≥ totalCharsOf cache then
    { current_page := start_char
      total_pages := some (totalCharsOf cache)
      current_chunk := []
      is_complete := true
      error := none }
  else
    { current_page := adjustedEndOf cache max_chars start_char
      total_pages := some (totalCharsOf cache)
      current_chunk :=
        (if start_char = 0 then fileHeader file_name else []) ++
          str "## Chunk " ++ (Nat.repr (start_char / max_chars + 1)).data ++
          str " (characters " ++ (Nat.repr start_char).data ++ str "-" ++
          (Nat.repr (min (start_char + max_chars) (totalCharsOf cache))).data ++ str ")\n\n" ++
          finalChunkOf cache max_chars start_char ++ str "\n\n"
      is_complete := decide (adjustedEndOf cache max_chars start_char ≥ totalCharsOf cache)
      error := none }

/-- The character cursor of the `stream::unfold` state after `k` steps
(`src/streaming_parser.rs` lines 54-82: the next state's cursor is the
yielded progress's `current_page`). -/
def streamPos (file_name : Str) (cache : StreamingPdfCache) (max_chars : Nat) : Nat → Nat
  | 0 => 0
  | k + 1 =>
    (process_pdf_chunk file_name cache max_chars
      (streamPos file_name cache max_chars k)).current_page

example :
    (process_pdf_chunk (str "a.pdf") (mkStreamingPdfCache (str "hello world")) 4 0).current_page
      = 4 := by decide
example :
    (process_pdf_chunk (str "a.pdf") (mkStreamingPdfCache (str "hello world")) 200 0).is_complete
      = true := by decide
example :
    streamPos (str "a.pdf") (mkStreamingPdfCache (str "hello world")) 4 2 = 8 := by decide
example :
    (process_pdf_chunk (str "a.pdf") (mkStreamingPdfCache (str "hello world")) 4
      (streamPos (str "a.pdf") (mkStreamingPdfCache (str "hello world")) 4 3)).is_complete
      = true := by decide

theorem beforeLastSpace_length {cs wb : Str} (h : beforeLastSpace cs = some wb) :
    wb.length < cs.length := by
  induction cs generalizing wb with
  | nil => cases h
  | cons c t ih =>
    unfold beforeLastSpace at h
    cases hbt : beforeLastSpace t with
    | some r =>
      simp only [hbt] at h
      cases h
      have := ih hbt
      simp only [List.length_cons]
      omega
    | none =>
      simp only [hbt] at h
      split at h
      · cases h
        simp
      · cases h

theorem chunkTextOf_eq (cache : StreamingPdfCache)
    (hwf : cache.char_indices = computeCharIndices cache.content)
    {s e : Nat} (hse : s ≤ e) (he : e ≤ cache.content.length) :
    chunkTextOf cache s e = (cache.content.drop s).take (e - s) := by
  have hlen : cache.char_indices.length = cache.content.length + 1 := by
    rw [hwf]; exact computeCharIndicesGo_length cache.content 0
  have hgetD : ∀ i, i ≤ cache.content.length →
      cache.char_indices.getD i 0 = byteLen (cache.content.take i) := by
    intro i hi; rw [hwf]; simpa using computeCharIndicesGo_getD cache.content 0 i hi
  unfold chunkTextOf
  rw [if_pos (by omega), hgetD s (by omega), hgetD e he,
    sliceBytes_take_drop cache.content hse he]

theorem chunkTextOf_length (cache : StreamingPdfCache)
    (hwf : cache.char_indices = computeCharIndices cache.content)
    {s e : Nat} (hse : s ≤ e) (he : e ≤ cache.content.length) :
    (chunkTextOf cache s e).length = e - s := by
  rw [chunkTextOf_eq cache hwf hse he]
  simp
  omega

theorem totalCharsOf_eq (cache : StreamingPdfCache)
    (hwf : cache.char_indices = computeCharIndices cache.content) :
    totalCharsOf cache = cache.content.length := by
  unfold totalCharsOf
  rw [hwf]
  unfold computeCharIndices
  rw [computeCharIndicesGo_length cache.content 0]
  omega

/-- Each non-final chunking step advances the cursor by at least
`max 1 (max_chunk_chars / 10)` characters (or completes). -/
theorem process_pdf_chunk_step (file_name : Str) (cache : StreamingPdfCache)
    (hwf : cache.char_indices = computeCharIndices cache.content)
    {max_chars s : Nat} (hmc : 1 ≤ max_chars) (hs : s < totalCharsOf cache) :
    (process_pdf_chunk file_name cache max_chars s).is_complete = true ∨
    (process_pdf_chunk file_name cache max_chars s).current_page ≥
      s + max 1 (max_chars / 10) := by
  have hn := totalCharsOf_eq cache hwf
  set n := totalCharsOf cache with hndef
  unfold process_pdf_chunk
  rw [if_neg (by omega)]
  simp only [decide_eq_true_eq]
  by_cases hcomp : adjustedEndOf cache max_chars s ≥ n
  · exact Or.inl hcomp
  · refine Or.inr ?_
    by_cases hend : s + max_chars ≥ n
    · -- final chunk of the document: raw end is `n`, contradicting ¬complete
      exfalso
      have hmin : min (s + max_chars) n = n := by omega
      have hraw : rawEndOf cache max_chars s = n := by
        unfold rawEndOf finalChunkOf finalChunkAux
        rw [hmin, if_neg (by omega)]
        rw [chunkTextOf_length cache hwf (by omega) (by omega)]
        omega
      have : adjustedEndOf cache max_chars s = n := by
        unfold adjustedEndOf
        rw [hraw, if_neg (by omega)]
      omega
    · -- interior chunk of exactly `max_chars` characters
      have hmin : min (s + max_chars) n = s + max_chars := by omega
      have hchunklen : (chunkTextOf cache s (s + max_chars)).length = max_chars := by
        rw [chunkTextOf_length cache hwf (by omega) (by omega)]
        omega
      have hraw : rawEndOf cache max_chars s ≥ s + max 1 (max_chars / 10) ∧
          rawEndOf cache max_chars s > s := by
        unfold rawEndOf finalChunkOf finalChunkAux
        rw [hmin, if_pos (by omega)]
        have hd10 : max_chars / 10 ≤ max_chars := Nat.div_le_self _ _
        cases hbl : beforeLastSpace (chunkTextOf cache s (s + max_chars)) with
        | none =>
          simp only [hbl, hchunklen]
          omega
        | some wb =>
          simp only [hbl]
          by_cases hlong : wb.length ≥ minProgressFloor max_chars
          · rw [if_pos hlong]
            unfold minProgressFloor at hlong
            omega
          · rw [if_neg hlong, hchunklen]
            omega
      have : adjustedEndOf cache max_chars s = rawEndOf cache max_chars s := by
        unfold adjustedEndOf
        rw [if_neg (by omega)]
      omega

/-- If the cursor is at or past the end, the step completes immediately. -/
theorem process_pdf_chunk_complete_past (file_name : Str) (cache : StreamingPdfCache)
    {max_chars s : Nat} (hs : s ≥ totalCharsOf cache) :
    (process_pdf_chunk file_name cache max_chars s).is_complete = true := by
  unfold process_pdf_chunk
  rw [if_pos hs]

theorem streamPos_reaches_complete (file_name : Str) (cache : StreamingPdfCache)
    (hwf : cache.char_indices = computeCharIndices cache.content)
    {max_chars : Nat} (hmc : 1 ≤ max_chars) :
    ∀ m : Nat,
      (∃ k ≤ m, (process_pdf_chunk file_name cache max_chars
        (streamPos file_name cache max_chars k)).is_complete = true) ∨
      streamPos file_name cache max_chars m ≥ m * max 1 (max_chars / 10) := by
  intro m
  induction m with
  | zero => exact Or.inr (by simp [streamPos])
  | succ m ih =>
    rcases ih with ⟨k, hk, hcomp⟩ | hpos
    · exact Or.inl ⟨k, by omega, hcomp⟩
    · by_cases hn : streamPos file_name cache max_chars m ≥ totalCharsOf cache
      · exact Or.inl ⟨m, by omega, process_pdf_chunk_complete_past file_name cache hn⟩
      · rcases @process_pdf_chunk_step file_name cache hwf max_chars
          (streamPos file_name cache max_chars m) hmc (by omega) with hdone | hprog
        · exact Or.inl ⟨m, by omega, hdone⟩
        · refine Or.inr ?_
          show (process_pdf_chunk file_name cache max_chars
            (streamPos file_name cache max_chars m)).current_page ≥ _
          calc (m + 1) * max 1 (max_chars / 10)
              = m * max 1 (max_chars / 10) + max 1 (max_chars / 10) := by
                rw [Nat.succ_mul]
            _ ≤ streamPos file_name cache max_chars m + max 1 (max_chars / 10) :=
                Nat.add_le_add_right hpos _
            _ ≤ _ := hprog

theorem ceil_mul_ge (n q : Nat) (hq : 1 ≤ q) : n ≤ ((n + q - 1) / q) * q := by
  have hdm := Nat.div_add_mod (n + q - 1) q
  have hmod : (n + q - 1) % q < q := Nat.mod_lt _ (by omega)
  have key : ∀ qd r : Nat, qd + r = n + q - 1 → r < q → 1 ≤ q → n ≤ qd := by
    intro qd r h1 h2 h3
    omega
  have h := key (q * ((n + q - 1) / q)) ((n + q - 1) % q) hdm hmod hq
  rw [Nat.mul_comm]
  exact h

/-- C7. For `max_chunk_chars ≥ 1` and non-empty cached content, the PDF
streaming chunker reaches a progress value with `is_complete = true`
within `ceil(total_chars / max(1, max_chunk_chars / 10)) + 1` steps:
every step that does not complete advances the cursor by at least
`max 1 (max_chunk_chars / 10)` characters, so the stream always
terminates. -/
theorem C7_streaming_chunker_liveness (file_name : Str) (cache : StreamingPdfCache)
    (hwf : cache.char_indices = computeCharIndices cache.content)
    (max_chars : Nat) (hmc : 1 ≤ max_chars) (hne : cache.content ≠ []) :
    (∀ s, s < totalCharsOf cache →
      (process_pdf_chunk file_name cache max_chars s).is_complete = true ∨
      (process_pdf_chunk file_name cache max_chars s).current_page ≥
        s + max 1 (max_chars / 10)) ∧
    (∃ k, k ≤ (totalCharsOf cache + max 1 (max_chars / 10) - 1) / max 1 (max_chars / 10) ∧
      (process_pdf_chunk file_name cache max_chars
        (streamPos file_name cache max_chars k)).is_complete = true) := by
  refine ⟨fun s hs => process_pdf_chunk_step file_name cache hwf hmc hs, ?_⟩
  set q := max 1 (max_chars / 10) with hq
  set K := (totalCharsOf cache + q - 1) / q with hK
  rcases streamPos_reaches_complete file_name cache hwf hmc K with ⟨k, hk, hcomp⟩ | hpos
  · exact ⟨k, hk, hcomp⟩
  · refine ⟨K, Nat.le_refl _, process_pdf_chunk_complete_past file_name cache ?_⟩
    have h1 : totalCharsOf cache ≤ K * q := ceil_mul_ge (totalCharsOf cache) q (by omega)
    rw [← hq] at hpos
    omega

/-- Witness for C7 at a concrete stream (11 characters, chunk size 4:
positions 0, 4, 8, complete at step 2). -/
theorem C7_streaming_chunker_liveness_witness :
    ((process_pdf_chunk (str "a.pdf") (mkStreamingPdfCache (str "hello world")) 4 0).is_complete
        = true ∨
      (process_pdf_chunk (str "a.pdf") (mkStreamingPdfCache (str "hello world")) 4 0).current_page
        ≥ 0 + max 1 (4 / 10)) ∧
    (∃ k, k ≤ (totalCharsOf (mkStreamingPdfCache (str "hello world")) + max 1 (4 / 10) - 1) /
        max 1 (4 / 10) ∧
      (process_pdf_chunk (str "a.pdf") (mkStreamingPdfCache (str "hello world")) 4
        (streamPos (str "a.pdf") (mkStreamingPdfCache (str "hello world")) 4 k)).is_complete
        = true) :=
  ⟨(C7_streaming_chunker_liveness (str "a.pdf") (mkStreamingPdfCache (str "hello world")) rfl 4
      (by decide) (by decide)).1 0 (by decide),
   (C7_streaming_chunker_liveness (str "a.pdf") (mkStreamingPdfCache (str "hello world")) rfl 4
      (by decide) (by decide)).2⟩

/-! ## C3, C4, C6: PDF backend chain and the pdf-extract fallback -/

/-- Outcome of one backend call (or of the raw `pdf_extract` library
call): success, an ordinary `Err`, or a panic carrying the payload
message. -/
inductive BOut (α : Type) : Type
  | ok (a : α)
  | err (e : Str)
  | panics (m : Str)
deriving DecidableEq

/-- Whether a backend outcome is a success. -/
def BOut.isOk {α : Type} : BOut α → Bool
  | .ok _ => true
  | _ => false

/-- `FastPdfExtractor::extract_text` (`src/fast_pdf_extractor.rs` lines
651-665) over an abstract backend chain: backends are tried in order,
an `Err` is logged and skipped; there is no `catch_unwind` in this
loop, so a backend panic propagates out of the dispatcher; when the
chain is exhausted the aggregate error names the file. -/
def dispatch_extract_text (file_path : Str) : List (BOut Str) → BOut Str
  | [] => .err (str "All PDF extraction backends failed for file: " ++ file_path)
  | .ok t :: _ => .ok t
  | .err _ :: rest => dispatch_extract_text file_path rest
  | .panics m :: _ => .panics m

/-- `FastPdfExtractor::get_page_count` (lines 688-702): same loop shape
as `extract_text`, no panic containment. -/
def dispatch_get_page_count (file_path : Str) : List (BOut Nat) → BOut Nat
  | [] => .err (str "All PDF backends failed to get page count for file: " ++ file_path)
  | .ok n :: _ => .ok n
  | .err _ :: rest => dispatch_get_page_count file_path rest
  | .panics m :: _ => .panics m

/-- `FastPdfExtractor::extract_pages_text` (lines 705-744): each
backend call is wrapped in `catch_unwind(AssertUnwindSafe(..))`, so a
panicking backend is logged and the next backend is tried. -/
def dispatch_extract_pages_text (file_path : Str) : List (BOut Str) → BOut Str
  | [] =>
    .err (str "All PDF extraction backends failed for page extraction from file: " ++ file_path)
  | .ok t :: _ => .ok t
  | .err _ :: rest => dispatch_extract_pages_text file_path rest
  | .panics _ :: rest => dispatch_extract_pages_text file_path rest

/-- Rust `str::is_prefix`-style check used by `strContains`. -/
def prefixAux : Str → Str → Bool
  | [], _ => true
  | _ :: _, [] => false
  | a :: as2, b :: bs => a = b && prefixAux as2 bs

def strContainsAux (needle : Str) : Str → Bool
  | [] => prefixAux needle []
  | c :: t => prefixAux needle (c :: t) || strContainsAux needle t

/-- Rust `str::contains(&str)`: substring search. -/
def strContains (hay needle : Str) : Bool := strContainsAux needle hay

example : strContains (str "unsupported encoding: GBK-EUC-H") (str "GBK") = true := by decide
example : strContains (str "stack overflow") (str "encoding") = false := by decide

/-- The friendly message substituted for an encoding-related panic
(`src/fast_pdf_extractor.rs` lines 370, 397, 428). -/
def encodingFriendlyMsg (m : Str) : Str :=
  str "PDF contains unsupported text encoding (" ++ m ++
    str "). This PDF uses a character encoding that the pdf-extract library cannot handle. " ++
    str "Try using a different PDF or converting it to use standard UTF-8 encoding."

/-- The panic classification of `PdfExtractExtractor::extract_text`,
`extract_text_from_bytes` and `get_page_count`: the message contains
"unsupported encoding", "GBK" or "encoding". -/
def encodingRelated (m : Str) : Bool :=
  strContains m (str "unsupported encoding") || strContains m (str "GBK") ||
    strContains m (str "encoding")

/-- The narrower classification of `PdfExtractExtractor::extract_pages_text`
(line 492): "unsupported encoding" or "GBK-EUC-H". -/
def pagesEncodingRelated (m : Str) : Bool :=
  strContains m (str "unsupported encoding") || strContains m (str "GBK-EUC-H")

/-- `PdfExtractExtractor::extract_text` (`src/fast_pdf_extractor.rs`
lines 351-376), with the raw `pdf_extract::extract_text` call's outcome
as oracle. -/
def pdfExtract_extract_text (lib : BOut Str) : Except Str Str :=
  match lib with
  | .ok text => .ok text
  | .err e => .error (str "Failed to extract text with pdf-extract: " ++ e)
  | .panics m =>
    if encodingRelated m then .error (encodingFriendlyMsg m)
    else .error (str "pdf-extract backend panicked: " ++ m)

/-- `PdfExtractExtractor::extract_text_from_bytes`
(`src/fast_pdf_extractor.rs` lines 378-403), with the raw
`pdf_extract::extract_text_from_mem` call's outcome as oracle: the same
panic classification as `extract_text`, and the from-bytes error
message for an ordinary library error. -/
def pdfExtract_extract_text_from_bytes (lib : BOut Str) : Except Str Str :=
  match lib with
  | .ok text => .ok text
  | .err e => .error (str "Failed to extract text from bytes with pdf-extract: " ++ e)
  | .panics m =>
    if encodingRelated m then .error (encodingFriendlyMsg m)
    else .error (str "pdf-extract backend panicked: " ++ m)

/-- `PdfExtractExtractor::get_page_count` (lines 405-444): on success,
page breaks (form feeds) are counted, floored at 1; when that estimate
is 1 the byte length divided by 3000 characters-per-page (floored at 1)
is used instead. -/
def pdfExtract_get_page_count (lib : BOut Str) : Except Str Nat :=
  match lib with
  | .err e => .error (str "Failed to extract text with pdf-extract: " ++ e)
  | .panics m =>
    if encodingRelated m then .error (encodingFriendlyMsg m)
    else .error (str "pdf-extract backend panicked: " ++ m)
  | .ok text =>
    if max (List.count '\x0C' text) 1 = 1 then .ok (max (byteLen text / 3000) 1)
    else .ok (max (List.count '\x0C' text) 1)

/-- Rust `format!("{:?}", page_numbers)`. -/
def fmtPagesGo : List Nat → Str
  | [] => []
  | [n] => (Nat.repr n).data
  | n :: rest => (Nat.repr n).data ++ str ", " ++ fmtPagesGo rest

def fmtPages (l : List Nat) : Str := str "[" ++ fmtPagesGo l ++ str "]"

/-- `create_encoding_fallback_message` (lines 588-619), abridged to its
skeleton: the notice naming the file, the requested pages and the
encoding error (the fixed explanatory prose in between is immaterial to
every claim and elided from the embedding). -/
def encodingFallbackMsg (file_name : Str) (page_numbers : List Nat) (encoding_error : Str) : Str :=
  str "=== PDF Text Extraction Notice ===\n\nFile: " ++ file_name ++
    str "\nRequested pages: " ++ fmtPages page_numbers ++
    str "\n\n⚠️ **Text extraction temporarily unavailable**\n\n" ++
    str "This PDF uses a character encoding that is not currently supported " ++
    str "by the text extraction library:\n- Encoding issue: " ++ encoding_error ++ str "\n"

/-- The per-page assembly loop of `PdfExtractExtractor::extract_pages_text`
(lines 509-524) once form-feed page boundaries were found. -/
def buildPagesGo (pages : List Str) : List Nat → Str → Except Str Str
  | [], acc => .ok acc
  | n :: rest, acc =>
    if n = 0 ∨ n > pages.length then
      .error (str "Page " ++ (Nat.repr n).data ++ str " is out of range (1-" ++
        (Nat.repr pages.length).data ++ str ")")
    else
      buildPagesGo pages rest (acc ++ str "=== Page " ++ (Nat.repr n).data ++ str " ===\n" ++
        pages.getD (n - 1) [] ++ str "\n\n")

/-- `PdfExtractExtractor::extract_pages_text` (lines 446-538): a panic
whose message contains "unsupported encoding" or "GBK-EUC-H" becomes an
`Ok` fallback notice; any other panic becomes an `Err` with the raw
panic text; on success the text is split on form feeds and either
page-sliced or returned whole with a note. -/
def pdfExtract_extract_pages_text (file_name : Str) (page_numbers : List Nat)
    (lib : BOut Str) : Except Str Str :=
  match lib with
  | .err e => .error (str "Failed to extract text with pdf-extract: " ++ e)
  | .panics m =>
    if pagesEncodingRelated m then .ok (encodingFallbackMsg file_name page_numbers m)
    else .error (str "pdf_extract panic: " ++ m)
  | .ok full_text =>
    if (rsSplit '\x0C' full_text).length > 1 then
      buildPagesGo (rsSplit '\x0C' full_text) page_numbers []
    else
      .ok (str "=== Note: pdf-extract backend cannot extract specific pages ===\n" ++
        str "Requested pages: " ++ fmtPages page_numbers ++
        str "\nReturning full document content:\n\n" ++ full_text)

/-- C3 counterexample: in the `extract_text` dispatcher a panicking
first backend propagates instead of falling through to the succeeding
second backend, so the dispatcher does not "continue past any backend
that returns an error or panics" for all three operations. -/
theorem C3_dispatcher_counterexample :
    dispatch_extract_text (str "f.pdf") [.panics (str "boom"), .ok (str "text")] =
      .panics (str "boom") ∧
    (BOut.panics (str "boom") : BOut Str) ≠ .ok (str "text") :=
  ⟨rfl, by decide⟩

/-- C3 (amended). All three dispatchers try the backends in order and
return the first success; `extract_pages_text` continues past both
errors and panics; `extract_text` and `get_page_count` continue past
errors only and each propagates a backend panic; when every backend
fails, each returns its aggregate error naming the file. -/
theorem C3_backend_chain_dispatch (file_path : Str) :
    (∀ (pre : List (BOut Str)) (t : Str) (rest : List (BOut Str)),
      (∀ x ∈ pre, x.isOk = false) →
      dispatch_extract_pages_text file_path (pre ++ .ok t :: rest) = .ok t) ∧
    (∀ chain : List (BOut Str), (∀ x ∈ chain, x.isOk = false) →
      dispatch_extract_pages_text file_path chain =
        .err (str "All PDF extraction backends failed for page extraction from file: " ++
          file_path)) ∧
    (∀ (pre : List (BOut Str)) (t : Str) (rest : List (BOut Str)),
      (∀ x ∈ pre, ∃ e, x = .err e) →
      dispatch_extract_text file_path (pre ++ .ok t :: rest) = .ok t) ∧
    (∀ chain : List (BOut Str), (∀ x ∈ chain, ∃ e, x = .err e) →
      dispatch_extract_text file_path chain =
        .err (str "All PDF extraction backends failed for file: " ++ file_path)) ∧
    (∀ (pre : List (BOut Str)) (m : Str) (rest : List (BOut Str)),
      (∀ x ∈ pre, ∃ e, x = .err e) →
      dispatch_extract_text file_path (pre ++ .panics m :: rest) = .panics m) ∧
    (∀ (pre : List (BOut Nat)) (n : Nat) (rest : List (BOut Nat)),
      (∀ x ∈ pre, ∃ e, x = .err e) →
      dispatch_get_page_count file_path (pre ++ .ok n :: rest) = .ok n) ∧
    (∀ chain : List (BOut Nat), (∀ x ∈ chain, ∃ e, x = .err e) →
      dispatch_get_page_count file_path chain =
        .err (str "All PDF backends failed to get page count for file: " ++ file_path)) ∧
    (∀ (pre : List (BOut Nat)) (m : Str) (rest : List (BOut Nat)),
      (∀ x ∈ pre, ∃ e, x = .err e) →
      dispatch_get_page_count file_path (pre ++ .panics m :: rest) = .panics m) := by
  refine ⟨?_, ?_, ?_, ?_, ?_, ?_, ?_, ?_⟩
  · intro pre t rest h
    induction pre with
    | nil => rfl
    | cons b pre2 ih =>
      cases b with
      | ok a =>
        have hh := h (BOut.ok a) (by simp)
        simp [BOut.isOk] at hh
      | err e => exact ih fun x hx => h x (by simp [hx])
      | panics m => exact ih fun x hx => h x (by simp [hx])
  · intro chain h
    induction chain with
    | nil => rfl
    | cons b rest ih =>
      cases b with
      | ok a =>
        have hh := h (BOut.ok a) (by simp)
        simp [BOut.isOk] at hh
      | err e => exact ih fun x hx => h x (by simp [hx])
      | panics m => exact ih fun x hx => h x (by simp [hx])
  · intro pre t rest h
    induction pre with
    | nil => rfl
    | cons b pre2 ih =>
      rcases h b (by simp) with ⟨e, rfl⟩
      exact ih fun x hx => h x (by simp [hx])
  · intro chain h
    induction chain with
    | nil => rfl
    | cons b rest ih =>
      rcases h b (by simp) with ⟨e, rfl⟩
      exact ih fun x hx => h x (by simp [hx])
  · intro pre m rest h
    induction pre with
    | nil => rfl
    | cons b pre2 ih =>
      rcases h b (by simp) with ⟨e, rfl⟩
      exact ih fun x hx => h x (by simp [hx])
  · intro pre n rest h
    induction pre with
    | nil => rfl
    | cons b pre2 ih =>
      rcases h b (by simp) with ⟨e, rfl⟩
      exact ih fun x hx => h x (by simp [hx])
  · intro chain h
    induction chain with
    | nil => rfl
    | cons b rest ih =>
      rcases h b (by simp) with ⟨e, rfl⟩
      exact ih fun x hx => h x (by simp [hx])
  · intro pre m rest h
    induction pre with
    | nil => rfl
    | cons b pre2 ih =>
      rcases h b (by simp) with ⟨e, rfl⟩
      exact ih fun x hx => h x (by simp [hx])

/-- Witness for C3 at concrete chains. -/
theorem C3_backend_chain_dispatch_witness :
    dispatch_extract_pages_text (str "f.pdf")
      [.err (str "e1"), .panics (str "p"), .ok (str "t")] = .ok (str "t") ∧
    dispatch_extract_text (str "f.pdf") [.err (str "e1"), .err (str "e2")] =
      .err (str "All PDF extraction backends failed for file: " ++ str "f.pdf") ∧
    dispatch_get_page_count (str "f.pdf") [.err (str "e1"), .panics (str "boom"), .ok 3] =
      .panics (str "boom") :=
  ⟨(C3_backend_chain_dispatch (str "f.pdf")).1 [.err (str "e1"), .panics (str "p")]
      (str "t") [] (by decide),
   (C3_backend_chain_dispatch (str "f.pdf")).2.2.2.1 [.err (str "e1"), .err (str "e2")]
      (by intro x hx
          simp only [List.mem_cons, List.mem_singleton] at hx
          rcases hx with rfl | rfl | h
          · exact ⟨_, rfl⟩
          · exact ⟨_, rfl⟩
          · cases h),
   (C3_backend_chain_dispatch (str "f.pdf")).2.2.2.2.2.2.2 [.err (str "e1")] (str "boom")
      [.ok 3]
      (by intro x hx
          simp only [List.mem_singleton] at hx
          subst hx
          exact ⟨_, rfl⟩)⟩

theorem prefixAux_append {n s : Str} (b : Str) (h : prefixAux n s = true) :
    prefixAux n (s ++ b) = true := by
  induction n generalizing s with
  | nil => rfl
  | cons c t ih =>
    cases s with
    | nil => cases h
    | cons d s2 =>
      simp only [prefixAux, Bool.and_eq_true] at h ⊢
      exact ⟨h.1, ih h.2⟩

theorem strContains_append_left {a : Str} (b : Str) {n : Str}
    (h : strContains a n = true) : strContains (a ++ b) n = true := by
  unfold strContains at h ⊢
  induction a with
  | nil =>
    simp only [strContainsAux] at h
    cases n with
    | nil => cases b with
      | nil => exact h
      | cons c t => simp [strContainsAux, prefixAux]
    | cons c t => cases h
  | cons c t ih =>
    simp only [List.cons_append, strContainsAux, Bool.or_eq_true] at h ⊢
    rcases h with h | h
    · exact Or.inl (prefixAux_append b h)
    · exact Or.inr (ih h)

theorem strContains_append_right (a : Str) {b n : Str}
    (h : strContains b n = true) : strContains (a ++ b) n = true := by
  unfold strContains at h ⊢
  induction a with
  | nil => exact h
  | cons c t ih =>
    simp only [List.cons_append, strContainsAux, Bool.or_eq_true]
    exact Or.inr ih

/-- C4 counterexample: a panic of the fallback backend's
`extract_pages_text` with an encoding-related message (it contains both
"unsupported encoding" and "GBK") is converted into an `Ok` fallback
notice, not into the `Err` the claim requires. -/
theorem C4_panic_containment_counterexample :
    strContains (str "unsupported encoding: GBK-EUC-H") (str "encoding") = true ∧
    (pdfExtract_extract_pages_text (str "f.pdf") [1]
      (.panics (str "unsupported encoding: GBK-EUC-H"))).isOk = true := by
  constructor
  · decide
  · decide

/-- C4 (amended). A panic of the underlying `pdf_extract` library never
propagates: `extract_text`, `extract_text_from_bytes` and
`get_page_count` convert it into an `Err` — the friendly message
mentioning the unsupported encoding when the panic message contains
"unsupported encoding", "GBK" or "encoding", the raw panic text
otherwise.  `extract_pages_text` instead converts a panic whose message
contains "unsupported encoding" or "GBK-EUC-H" into an `Ok` fallback
notice mentioning the encoding, and any other panic into an `Err` with
the raw panic text. -/
theorem C4_pdf_extract_panic_containment (m file_name : Str) (page_numbers : List Nat) :
    (encodingRelated m = true →
      pdfExtract_extract_text (.panics m) = .error (encodingFriendlyMsg m) ∧
      pdfExtract_get_page_count (.panics m) = .error (encodingFriendlyMsg m) ∧
      pdfExtract_extract_text_from_bytes (.panics m) = .error (encodingFriendlyMsg m) ∧
      strContains (encodingFriendlyMsg m) (str "unsupported text encoding") = true) ∧
    (encodingRelated m = false →
      pdfExtract_extract_text (.panics m) =
        .error (str "pdf-extract backend panicked: " ++ m) ∧
      pdfExtract_get_page_count (.panics m) =
        .error (str "pdf-extract backend panicked: " ++ m) ∧
      pdfExtract_extract_text_from_bytes (.panics m) =
        .error (str "pdf-extract backend panicked: " ++ m)) ∧
    (pagesEncodingRelated m = true →
      pdfExtract_extract_pages_text file_name page_numbers (.panics m) =
        .ok (encodingFallbackMsg file_name page_numbers m) ∧
      strContains (encodingFallbackMsg file_name page_numbers m) (str "encoding") = true) ∧
    (pagesEncodingRelated m = false →
      pdfExtract_extract_pages_text file_name page_numbers (.panics m) =
        .error (str "pdf_extract panic: " ++ m)) := by
  refine ⟨fun h => ⟨?_, ?_, ?_, ?_⟩, fun h => ⟨?_, ?_, ?_⟩, fun h => ⟨?_, ?_⟩, fun h => ?_⟩
  · simp [pdfExtract_extract_text, h]
  · simp [pdfExtract_get_page_count, h]
  · simp [pdfExtract_extract_text_from_bytes, h]
  · unfold encodingFriendlyMsg
    apply strContains_append_left
    apply strContains_append_left
    apply strContains_append_left
    decide
  · simp [pdfExtract_extract_text, h]
  · simp [pdfExtract_get_page_count, h]
  · simp [pdfExtract_extract_text_from_bytes, h]
  · simp [pdfExtract_extract_pages_text, h]
  · unfold encodingFallbackMsg
    apply strContains_append_left
    apply strContains_append_left
    apply strContains_append_left
    apply strContains_append_right
    decide
  · simp [pdfExtract_extract_pages_text, h]

/-- Witness for C4 at concrete panic messages. -/
theorem C4_pdf_extract_panic_containment_witness :
    (pdfExtract_extract_text (.panics (str "uses GBK tables")) =
      .error (encodingFriendlyMsg (str "uses GBK tables"))) ∧
    (pdfExtract_extract_text_from_bytes (.panics (str "uses GBK tables")) =
      .error (encodingFriendlyMsg (str "uses GBK tables"))) ∧
    (pdfExtract_extract_text (.panics (str "index out of bounds")) =
      .error (str "pdf-extract backend panicked: " ++ str "index out of bounds")) ∧
    (pdfExtract_extract_text_from_bytes (.panics (str "index out of bounds")) =
      .error (str "pdf-extract backend panicked: " ++ str "index out of bounds")) ∧
    (pdfExtract_extract_pages_text (str "f.pdf") [2] (.panics (str "index out of bounds")) =
      .error (str "pdf_extract panic: " ++ str "index out of bounds")) :=
  ⟨((C4_pdf_extract_panic_containment (str "uses GBK tables") (str "f.pdf") [2]).1
      (by decide)).1,
   ((C4_pdf_extract_panic_containment (str "uses GBK tables") (str "f.pdf") [2]).1
      (by decide)).2.2.1,
   ((C4_pdf_extract_panic_containment (str "index out of bounds") (str "f.pdf") [2]).2.1
      (by decide)).1,
   ((C4_pdf_extract_panic_containment (str "index out of bounds") (str "f.pdf") [2]).2.1
      (by decide)).2.2,
   (C4_pdf_extract_panic_containment (str "index out of bounds") (str "f.pdf") [2]).2.2.2
      (by decide)⟩

theorem byteLen_replicate (n : Nat) (c : Char) :
    byteLen (List.replicate n c) = n * c.utf8Size := by
  induction n with
  | zero => simp [byteLen]
  | succ k ih =>
    simp only [List.replicate_succ, byteLen, ih]
    ring

/-- C6 counterexample: a text of 6000 `a`s followed by a single form
feed contains a page break, yet the estimated page count is 2 (the
byte-length heuristic fires because the form-feed count, floored at 1,
equals 1), not the claimed number of page breaks (1). -/
theorem C6_page_count_counterexample :
    List.count '\x0C' (List.replicate 6000 'a' ++ ['\x0C']) = 1 ∧
    pdfExtract_get_page_count (.ok (List.replicate 6000 'a' ++ ['\x0C'])) = .ok 2 ∧
    (2 : Nat) ≠ 1 := by
  have hcount : List.count '\x0C' (List.replicate 6000 'a' ++ ['\x0C']) = 1 := by
    rw [List.count_append, List.count_replicate]
    norm_num
    decide
  have hbl : byteLen (List.replicate 6000 'a' ++ ['\x0C']) = 6001 := by
    rw [byteLen_append, byteLen_replicate]
    simp only [byteLen]
    decide
  refine ⟨hcount, ?_, by decide⟩
  unfold pdfExtract_get_page_count
  dsimp only
  rw [hcount, hbl]
  decide

/-- C6 (amended). The fallback backend's page-count estimate equals the
form-feed count when the text contains at least two form feeds; with at
most one form feed it is the UTF-8 byte length divided by 3000
(characters-per-page heuristic), floored at a minimum of 1. -/
theorem C6_page_count_heuristic (text : Str) :
    (2 ≤ List.count '\x0C' text →
      pdfExtract_get_page_count (.ok text) = .ok (List.count '\x0C' text)) ∧
    (List.count '\x0C' text ≤ 1 →
      pdfExtract_get_page_count (.ok text) = .ok (max (byteLen text / 3000) 1)) := by
  constructor
  · intro h
    unfold pdfExtract_get_page_count
    dsimp only
    rw [if_neg (by omega)]
    congr 1
    omega
  · intro h
    unfold pdfExtract_get_page_count
    dsimp only
    rw [if_pos (by omega)]

/-- Witness for C6 at concrete texts. -/
theorem C6_page_count_heuristic_witness :
    (pdfExtract_get_page_count (.ok [' ', '\x0C', '\x0C']) =
      .ok (List.count '\x0C' [' ', '\x0C', '\x0C'])) ∧
    (pdfExtract_get_page_count (.ok (str "abc")) = .ok (max (byteLen (str "abc") / 3000) 1)) :=
  ⟨(C6_page_count_heuristic [' ', '\x0C', '\x0C']).1 (by decide),
   (C6_page_count_heuristic (str "abc")).2 (by decide)⟩

/-! ## C2: `get_or_cache` (`src/cache_system.rs`, `src/shared_utils.rs`) -/

/-- `CacheEntry<T>` (`src/cache_system.rs` lines 24-29); modification
times are `Nat`, `none` when unobtainable. -/
structure CacheEntry (α : Type) where
  content : α
  file_path : Str
  last_modified : Option Nat
deriving DecidableEq

/-- `CacheEntry::is_valid` (`src/cache_system.rs` lines 45-55) against
a file-system oracle `fs` giving each path's current modification time
(`none` when metadata or mtime is unreadable): valid iff the current
time is `≤` the snapshot, and valid whenever either time is missing. -/
def CacheEntry.isValid {α : Type} (fs : Str → Option Nat) (e : CacheEntry α) : Bool :=
  match e.last_modified with
  | some cached =>
    match fs e.file_path with
    | some current => decide (current ≤ cached)
    | none => true
  | none => true

/-- `HashMap::insert` on the path-keyed map. -/
def mapInsert {α : Type} (m : Str → Option α) (k : Str) (v : α) : Str → Option α :=
  fun k2 => if k2 = k then some v else m k2

/-- `get_or_cache_content` from the `create_file_cache` macro
(`src/cache_system.rs` lines 78-102), state-passing: takes the cache
map, returns the result, the new map, and how many times the extractor
ran (0 on a valid hit, 1 otherwise).  On a miss or invalid entry the
extractor's `Ok` is stored under the path with a fresh mtime snapshot
(`CacheEntry::new` reads `fs` at insert time). -/
def get_or_cache_content {α : Type} (fs : Str → Option Nat) (extractor : Str → Except Str α)
    (cache : Str → Option (CacheEntry α)) (file_path : Str) :
    Except Str α × (Str → Option (CacheEntry α)) × Nat :=
  match cache file_path with
  | some entry =>
    if entry.isValid fs then (.ok entry.content, cache, 0)
    else
      match extractor file_path with
      | .error e => (.error e, cache, 1)
      | .ok content =>
        (.ok content, mapInsert cache file_path ⟨content, file_path, fs file_path⟩, 1)
  | none =>
    match extractor file_path with
    | .error e => (.error e, cache, 1)
    | .ok content =>
      (.ok content, mapInsert cache file_path ⟨content, file_path, fs file_path⟩, 1)

/-- `get_or_cache_pdf_content` (`src/shared_utils.rs` lines 87-129),
state-passing with the two extractor oracles: any present entry is
returned as a hit — there is no validity check and no stored
modification-time snapshot; on a miss the `PdfCache` artifact is built
and stored. -/
def get_or_cache_pdf_content (extract_result : Except Str Str)
    (page_count_result : Except Str Nat) (cache : Str → Option PdfCache) (file_path : Str) :
    Except Str PdfCache × (Str → Option PdfCache) × Nat :=
  match cache file_path with
  | some cached => (.ok cached, cache, 0)
  | none =>
    match extract_result with
    | .error e =>
      (.error (str "Failed to extract text from PDF: " ++ file_path ++ str ": " ++ e), cache, 1)
    | .ok full_text =>
      (.ok (mkPdfCache full_text page_count_result.toOption),
       mapInsert cache file_path (mkPdfCache full_text page_count_result.toOption), 1)

/-- C2 counterexample: with a cached `PdfCache` entry for `a.pdf`
containing "old" and an extractor that would now produce "new" (the
file changed on disk), `get_or_cache_pdf_content` still returns the
stale "old" artifact without running the extractor — the PDF cache
never re-validates, contradicting the claimed miss-or-invalid
re-extraction with a fresh modification-time snapshot. -/
theorem C2_get_or_cache_counterexample :
    (get_or_cache_pdf_content (.ok (str "new")) (.ok 1)
      (fun k => if k = str "a.pdf" then some (mkPdfCache (str "old") (some 1)) else none)
      (str "a.pdf")).1 = .ok (mkPdfCache (str "old") (some 1)) ∧
    (get_or_cache_pdf_content (.ok (str "new")) (.ok 1)
      (fun k => if k = str "a.pdf" then some (mkPdfCache (str "old") (some 1)) else none)
      (str "a.pdf")).2.2 = 0 ∧
    mkPdfCache (str "old") (some 1) ≠ mkPdfCache (str "new") (some 1) := by
  refine ⟨by decide, by decide, ?_⟩
  intro h
  cases h

/-- C2 (amended). The macro-generated `get_or_cache_content` behaves as
claimed: a valid cached entry is returned as a clone without invoking
the extractor; a missing or invalid entry makes it invoke the extractor
exactly once and, on success, store the result keyed by the path with a
fresh modification-time snapshot and return it (on extractor failure
the error is returned and the cache is unchanged).  The PDF-specific
`get_or_cache_pdf_content`, however, returns any present entry
regardless of file modification and stores entries without any
snapshot. -/
theorem C2_get_or_cache_spec :
    (∀ (α : Type) (fs : Str → Option Nat) (extractor : Str → Except Str α)
        (cache : Str → Option (CacheEntry α)) (fp : Str) (entry : CacheEntry α),
      cache fp = some entry → entry.isValid fs = true →
        get_or_cache_content fs extractor cache fp = (.ok entry.content, cache, 0)) ∧
    (∀ (α : Type) (fs : Str → Option Nat) (extractor : Str → Except Str α)
        (cache : Str → Option (CacheEntry α)) (fp : Str),
      (∀ entry, cache fp = some entry → entry.isValid fs = false) →
        (∀ content, extractor fp = .ok content →
          get_or_cache_content fs extractor cache fp =
            (.ok content, mapInsert cache fp ⟨content, fp, fs fp⟩, 1)) ∧
        (∀ e, extractor fp = .error e →
          get_or_cache_content fs extractor cache fp = (.error e, cache, 1))) ∧
    (∀ (et : Except Str Str) (pc : Except Str Nat) (cache : Str → Option PdfCache)
        (fp : Str) (entry : PdfCache),
      cache fp = some entry → get_or_cache_pdf_content et pc cache fp = (.ok entry, cache, 0)) ∧
    (∀ (et : Except Str Str) (pc : Except Str Nat) (cache : Str → Option PdfCache) (fp : Str),
      cache fp = none → ∀ full_text, et = .ok full_text →
        get_or_cache_pdf_content et pc cache fp =
          (.ok (mkPdfCache full_text pc.toOption),
           mapInsert cache fp (mkPdfCache full_text pc.toOption), 1)) := by
  refine ⟨?_, ?_, ?_, ?_⟩
  · intro α fs extractor cache fp entry hhit hvalid
    unfold get_or_cache_content
    rw [hhit]
    dsimp only
    rw [if_pos hvalid]
  · intro α fs extractor cache fp hinvalid
    constructor
    · intro content hok
      unfold get_or_cache_content
      cases hhit : cache fp with
      | none =>
        dsimp only
        rw [hok]
      | some entry =>
        dsimp only
        rw [if_neg (by simp [hinvalid entry hhit]), hok]
    · intro e herr
      unfold get_or_cache_content
      cases hhit : cache fp with
      | none =>
        dsimp only
        rw [herr]
      | some entry =>
        dsimp only
        rw [if_neg (by simp [hinvalid entry hhit]), herr]
  · intro et pc cache fp entry hhit
    unfold get_or_cache_pdf_content
    rw [hhit]
  · intro et pc cache fp hmiss full_text hok
    unfold get_or_cache_pdf_content
    rw [hmiss, hok]

/-- Witness for C2 at concrete caches: a valid hit (mtime 3 ≤ snapshot
5), an invalid entry re-extracted (mtime 7 > snapshot 5), and a PDF
cache miss. -/
theorem C2_get_or_cache_spec_witness :
    (get_or_cache_content (fun _ => some 3) (fun _ => .ok 42)
      (fun k => if k = str "a.xlsx" then some ⟨41, str "a.xlsx", some 5⟩ else none)
      (str "a.xlsx") =
      (.ok 41, (fun k => if k = str "a.xlsx" then some ⟨41, str "a.xlsx", some 5⟩ else none), 0)) ∧
    (get_or_cache_content (fun _ => some 7) (fun _ => .ok 42)
      (fun k => if k = str "a.xlsx" then some ⟨41, str "a.xlsx", some 5⟩ else none)
      (str "a.xlsx") =
      (.ok 42,
       mapInsert (fun k => if k = str "a.xlsx" then some ⟨41, str "a.xlsx", some 5⟩ else none)
         (str "a.xlsx") ⟨42, str "a.xlsx", some 7⟩, 1)) ∧
    (get_or_cache_pdf_content (.ok (str "text")) (.ok 2) (fun _ => none) (str "b.pdf") =
      (.ok (mkPdfCache (str "text") (some 2)),
       mapInsert (fun _ => none) (str "b.pdf") (mkPdfCache (str "text") (some 2)), 1)) :=
  ⟨C2_get_or_cache_spec.1 Nat (fun _ => some 3) (fun _ => .ok 42)
      (fun k => if k = str "a.xlsx" then some ⟨41, str "a.xlsx", some 5⟩ else none)
      (str "a.xlsx") ⟨41, str "a.xlsx", some 5⟩ (by decide) (by decide),
   (C2_get_or_cache_spec.2.1 Nat (fun _ => some 7) (fun _ => .ok 42)
      (fun k => if k = str "a.xlsx" then some ⟨41, str "a.xlsx", some 5⟩ else none)
      (str "a.xlsx")
      (by intro entry he
          have he2 : some (⟨41, str "a.xlsx", some 5⟩ : CacheEntry Nat) = some entry := by
            simpa using he
          cases he2
          decide)).1 42 rfl,
   C2_get_or_cache_spec.2.2.2 (.ok (str "text")) (.ok 2) (fun _ => none) (str "b.pdf") rfl
     (str "text") rfl⟩

/-! ## C9, C10: processing results and slide-specific extraction -/

/-- `DocumentProcessingResult` (`src/document_parser.rs` lines 10-18). -/
structure DocumentProcessingResult where
  content : Str
  total_pages : Option Nat
  requested_pages : Str
  returned_pages : List Nat
  file_path : Str
  error : Option Str
deriving DecidableEq

/-- `DocumentProcessingResult::error` (`src/document_parser.rs` lines
80-89): `content` echoes the message, no pages populated. -/
def DocumentProcessingResult.mkError (file_path e : Str) : DocumentProcessingResult :=
  { content := e
    total_pages := none
    requested_pages := []
    returned_pages := []
    file_path := file_path
    error := some e }

/-- `DocumentProcessingResult::success` (lines 62-77). -/
def DocumentProcessingResult.mkSuccess (content : Str) (total_pages : Option Nat)
    (requested_pages : Str) (returned_pages : List Nat) (file_path : Str) :
    DocumentProcessingResult :=
  { content := content
    total_pages := total_pages
    requested_pages := requested_pages
    returned_pages := returned_pages
    file_path := file_path
    error := none }

/-- Oracles for the external collaborators of
`process_document_with_pages`: file existence, the lower-cased
extension, the Excel workbook (sheet names and per-sheet rendered
tables, `none` when `worksheet_range` fails), the PDF page count and
page extraction, the DOCX page count and full read, and the path's
file name. -/
structure DocEnv where
  fileExists : Bool
  extension : Option Str
  excelOpen : Except Str (List Str)
  excelSheetTable : Str → Option Str
  pdfPageCount : Except Str Nat
  pdfExtractPages : List Nat → Except Str Str
  docxPageCount : Except Str Nat
  docxRead : Except Str Str
  fileName : Str

/-- One iteration of the requested-sheets loop of
`process_excel_with_pages` (`src/document_parser.rs` lines 333-345). -/
def excelSheetSection (sheet_names : List Str) (tables : Str → Option Str) (i : Nat) : Str :=
  str "## Sheet " ++ (Nat.repr i).data ++ str ": " ++ sheet_names.getD (i - 1) [] ++
    str "\n\n" ++
    (match tables (sheet_names.getD (i - 1) []) with
     | some t => t ++ str "\n\n"
     | none => str "*Sheet could not be read*\n\n")

/-- `process_excel_with_pages` (`src/document_parser.rs` lines 303-354):
the loop pushes every requested index into `returned_pages`. -/
def process_excel_with_pages (env : DocEnv) (file_path pages : Str) :
    DocumentProcessingResult :=
  match env.excelOpen with
  | .error e => .mkError file_path (str "Failed to open Excel file: " ++ e)
  | .ok sheet_names =>
    match parse_pages_parameter pages sheet_names.length with
    | .error e => .mkError file_path (str "Invalid pages parameter: " ++ e)
    | .ok idx =>
      .mkSuccess
        (fileHeader env.fileName ++
          (idx.map (excelSheetSection sheet_names env.excelSheetTable)).flatten)
        (some sheet_names.length) pages idx file_path

/-- `process_pdf_with_pages` (`src/document_parser.rs` lines 357-407). -/
def process_pdf_with_pages (env : DocEnv) (file_path pages : Str) :
    DocumentProcessingResult :=
  match env.pdfPageCount with
  | .error e => .mkError file_path (str "Failed to get PDF page count: " ++ e)
  | .ok total_pages =>
    match parse_pages_parameter pages total_pages with
    | .error e => .mkError file_path (str "Invalid pages parameter: " ++ e)
    | .ok idx =>
      match env.pdfExtractPages idx with
      | .error e => .mkError file_path (str "Failed to extract PDF pages: " ++ e)
      | .ok text =>
        .mkSuccess
          (fileHeader env.fileName ++
            (if idx.length = total_pages then str "## Content (All Pages)\n\n"
             else str "## Content (Pages: " ++ pages ++ str ")\n\n") ++ text)
          (some total_pages) pages idx file_path

/-- `process_docx_with_pages` (`src/document_parser.rs` lines 410-455):
a failing page count degrades to 1 page; full content is returned and
`returned_pages` is `[1]` when the estimated count is 1. -/
def process_docx_with_pages (env : DocEnv) (file_path pages : Str) :
    DocumentProcessingResult :=
  match parse_pages_parameter pages
      (match env.docxPageCount with | .ok c => c | .error _ => 1) with
  | .error e => .mkError file_path (str "Invalid pages parameter: " ++ e)
  | .ok idx =>
    match env.docxRead with
    | .error e => .mkError file_path (str "Failed to read DOCX file: " ++ e)
    | .ok content =>
      .mkSuccess content
        (some (match env.docxPageCount with | .ok c => c | .error _ => 1)) pages
        (if (match env.docxPageCount with | .ok c => c | .error _ => 1) = 1 then [1] else idx)
        file_path

/-- `process_document_with_pages` (`src/document_parser.rs` lines
262-300): existence check, then extension-based dispatch. -/
def process_document_with_pages (env : DocEnv) (file_path : Str) (pages0 : Option Str) :
    DocumentProcessingResult :=
  if env.fileExists = false then
    .mkError file_path (str "File not found: " ++ file_path)
  else
    match env.extension with
    | some ext =>
      if ext = str "xlsx" ∨ ext = str "xls" then
        process_excel_with_pages env file_path (pages0.getD (str "all"))
      else if ext = str "pdf" then
        process_pdf_with_pages env file_path (pages0.getD (str "all"))
      else if ext = str "docx" ∨ ext = str "doc" then
        process_docx_with_pages env file_path (pages0.getD (str "all"))
      else .mkError file_path (str "Unsupported file type: " ++ ext)
    | none => .mkError file_path (str "Unable to determine file type (no extension)")

/-- `PowerPointProcessingResult` (`src/powerpoint_parser.rs` lines 50-59). -/
structure PowerPointProcessingResult where
  content : Str
  total_slides : Option Nat
  requested_slides : Str
  returned_slides : List Nat
  file_path : Str
  slide_texts : List (Nat × Str)
  error : Option Str
deriving DecidableEq

/-- `PowerPointProcessingResult::error` (lines 135-145). -/
def PowerPointProcessingResult.mkError (file_path e : Str) : PowerPointProcessingResult :=
  { content := e
    total_slides := none
    requested_slides := []
    returned_slides := []
    file_path := file_path
    slide_texts := []
    error := some e }

/-- `PowerPointProcessingResult::success` (lines 114-132). -/
def PowerPointProcessingResult.mkSuccess (content : Str) (total_slides : Option Nat)
    (requested_slides : Str) (returned_slides : List Nat) (file_path : Str)
    (slide_texts : List (Nat × Str)) : PowerPointProcessingResult :=
  { content := content
    total_slides := total_slides
    requested_slides := requested_slides
    returned_slides := returned_slides
    file_path := file_path
    slide_texts := slide_texts
    error := none }

/-- `validate_file_path` (`src/shared_utils.rs` lines 194-214) with
existence and extension oracles. -/
def validate_file_path (fileExists : Bool) (extension : Option Str) (file_path : Str) :
    Except Str Str :=
  if fileExists = false then .error (str "File not found: " ++ file_path)
  else
    match extension with
    | some ext =>
      if ext = str "pdf" ∨ ext = str "xlsx" ∨ ext = str "xls" ∨ ext = str "docx" ∨
          ext = str "doc" ∨ ext = str "pptx" ∨ ext = str "ppt" then .ok ext
      else .error (str "Unsupported file type: " ++ ext)
    | none => .error (str "Unable to determine file type (no extension)")

/-- `slide_texts.get(&slide_number)` on the association-list model of
the per-slide `HashMap`. -/
def lookupSlide (m : List (Nat × Str)) (n : Nat) : Option Str :=
  (m.find? (fun p => p.1 = n)).map (fun p => p.2)

/-- One iteration of the slide loop of `extract_powerpoint_slides`
(`src/powerpoint_parser.rs` lines 237-243): a section only when the
slide is present and non-empty after trimming. -/
def slideSection (m : List (Nat × Str)) (n : Nat) : Str :=
  match lookupSlide m n with
  | some t =>
    if rsTrim t ≠ [] then
      str "## Slide " ++ (Nat.repr n).data ++ str "\n\n" ++ t ++ str "\n\n"
    else []
  | none => []

/-- The whole slide loop's markdown. -/
def slidesMarkdown (m : List (Nat × Str)) (ns : List Nat) : Str :=
  (ns.map (slideSection m)).flatten

/-- `extract_powerpoint_slides` (`src/powerpoint_parser.rs` lines
232-246), with the `extract_powerpoint_text_manual` outcome as oracle
(`(all_text, slide_texts)` on success). -/
def extract_powerpoint_slides (file_name : Str)
    (manual : Except Str (Str × List (Nat × Str))) (slide_numbers : List Nat) :
    Except Str Str :=
  match manual with
  | .error e => .error e
  | .ok p => .ok (fileHeader file_name ++ slidesMarkdown p.2 slide_numbers)

/-- Modelled from the spec: `CacheManager::extract_units` is declared in
`src/cache_system.rs` only through its macro twin
`extract_units_from_cache` (lines 127-145) — the `CacheManager` type
used by the PowerPoint path is not under `src/`.  Per spec §4.4 (and
the macro), with `total_units = Some(_)` it delegates to the
unit-extractor function; with `None` it returns the full cached content
behind a note. -/
def cacheManagerExtractUnits (cache : PowerPointCache) (unit_numbers : List Nat)
    (file_name : Str) (manual : Except Str (Str × List (Nat × Str))) : Except Str Str :=
  match cache.total_slides with
  | some _ => extract_powerpoint_slides file_name manual unit_numbers
  | none =>
    .ok (fileHeader file_name ++ str "## Content (Requested Units: " ++
      fmtPages unit_numbers ++ str ")\n\n" ++
      str "*Note: Unit-specific extraction not available. Returning full document.*\n\n" ++
      cache.content)

/-- Oracles for `process_powerpoint_with_slides`. -/
structure PptEnv where
  fileExists : Bool
  extension : Option Str
  getOrCache : Except Str PowerPointCache
  manualExtract : Except Str (Str × List (Nat × Str))
  fileName : Str

/-- `process_powerpoint_with_slides` (`src/powerpoint_parser.rs` lines
710-767). -/
def process_powerpoint_with_slides (env : PptEnv) (resolved_file_path : Str)
    (slides0 : Option Str) : PowerPointProcessingResult :=
  match validate_file_path env.fileExists env.extension resolved_file_path with
  | .error e => .mkError resolved_file_path e
  | .ok _ =>
    match env.getOrCache with
    | .error e =>
      .mkError resolved_file_path (str "Failed to extract PowerPoint content: " ++ e)
    | .ok cache =>
      match parse_pages_parameter (slides0.getD (str "all")) (cache.total_slides.getD 0) with
      | .error e => .mkError resolved_file_path (str "Invalid slides parameter: " ++ e)
      | .ok idx =>
        if idx.length = cache.total_slides.getD 0 then
          .mkSuccess cache.content (some (cache.total_slides.getD 0))
            (slides0.getD (str "all")) idx resolved_file_path cache.slide_texts
        else
          match cacheManagerExtractUnits cache idx env.fileName env.manualExtract with
          | .error e =>
            .mkError resolved_file_path (str "Failed to extract specific slides: " ++ e)
          | .ok content =>
            .mkSuccess content (some (cache.total_slides.getD 0))
              (slides0.getD (str "all")) idx resolved_file_path cache.slide_texts

theorem process_excel_error_invariant (env : DocEnv) (fp pages : Str) :
    (process_excel_with_pages env fp pages).error.isSome = true →
      (process_excel_with_pages env fp pages).returned_pages = [] ∧
      (process_excel_with_pages env fp pages).requested_pages = [] := by
  unfold process_excel_with_pages
  split
  · intro _; exact ⟨rfl, rfl⟩
  · split
    · intro _; exact ⟨rfl, rfl⟩
    · intro h; simp [DocumentProcessingResult.mkSuccess] at h

theorem process_pdf_error_invariant (env : DocEnv) (fp pages : Str) :
    (process_pdf_with_pages env fp pages).error.isSome = true →
      (process_pdf_with_pages env fp pages).returned_pages = [] ∧
      (process_pdf_with_pages env fp pages).requested_pages = [] := by
  unfold process_pdf_with_pages
  split
  · intro _; exact ⟨rfl, rfl⟩
  · split
    · intro _; exact ⟨rfl, rfl⟩
    · split
      · intro _; exact ⟨rfl, rfl⟩
      · intro h; simp [DocumentProcessingResult.mkSuccess] at h

theorem process_docx_error_invariant (env : DocEnv) (fp pages : Str) :
    (process_docx_with_pages env fp pages).error.isSome = true →
      (process_docx_with_pages env fp pages).returned_pages = [] ∧
      (process_docx_with_pages env fp pages).requested_pages = [] := by
  unfold process_docx_with_pages
  split
  · intro _; exact ⟨rfl, rfl⟩
  · split
    · intro _; exact ⟨rfl, rfl⟩
    · intro h; simp [DocumentProcessingResult.mkSuccess] at h

/-- C9. Every result of the document and PowerPoint processing
operations satisfies: a populated `error` implies the returned-units
list is empty and the requested-units echo is the empty string. -/
theorem C9_error_result_invariant :
    (∀ (env : DocEnv) (fp : Str) (pages0 : Option Str),
      (process_document_with_pages env fp pages0).error.isSome = true →
        (process_document_with_pages env fp pages0).returned_pages = [] ∧
        (process_document_with_pages env fp pages0).requested_pages = []) ∧
    (∀ (env : PptEnv) (fp : Str) (slides0 : Option Str),
      (process_powerpoint_with_slides env fp slides0).error.isSome = true →
        (process_powerpoint_with_slides env fp slides0).returned_slides = [] ∧
        (process_powerpoint_with_slides env fp slides0).requested_slides = []) := by
  constructor
  · intro env fp pages0
    unfold process_document_with_pages
    split
    · intro _; exact ⟨rfl, rfl⟩
    · split
      · split
        · exact process_excel_error_invariant env fp _
        · split
          · exact process_pdf_error_invariant env fp _
          · split
            · exact process_docx_error_invariant env fp _
            · intro _; exact ⟨rfl, rfl⟩
      · intro _; exact ⟨rfl, rfl⟩
  · intro env fp slides0
    unfold process_powerpoint_with_slides
    split
    · intro _; exact ⟨rfl, rfl⟩
    · split
      · intro _; exact ⟨rfl, rfl⟩
      · split
        · intro _; exact ⟨rfl, rfl⟩
        · split
          · intro h; simp [PowerPointProcessingResult.mkSuccess] at h
          · split
            · intro _; exact ⟨rfl, rfl⟩
            · intro h; simp [PowerPointProcessingResult.mkSuccess] at h

/-- Witness for C9 at concrete failing environments (missing file). -/
theorem C9_error_result_invariant_witness :
    ((process_document_with_pages
        ⟨false, none, .error [], fun _ => none, .error [], fun _ => .error [], .error [],
          .error [], str "x"⟩ (str "missing.xlsx") none).returned_pages = [] ∧
      (process_document_with_pages
        ⟨false, none, .error [], fun _ => none, .error [], fun _ => .error [], .error [],
          .error [], str "x"⟩ (str "missing.xlsx") none).requested_pages = []) ∧
    ((process_powerpoint_with_slides ⟨false, none, .error [], .error [], str "x"⟩
        (str "missing.pptx") none).returned_slides = [] ∧
      (process_powerpoint_with_slides ⟨false, none, .error [], .error [], str "x"⟩
        (str "missing.pptx") none).requested_slides = []) :=
  ⟨C9_error_result_invariant.1
      ⟨false, none, .error [], fun _ => none, .error [], fun _ => .error [], .error [],
        .error [], str "x"⟩ (str "missing.xlsx") none (by decide),
   C9_error_result_invariant.2 ⟨false, none, .error [], .error [], str "x"⟩
      (str "missing.pptx") none (by decide)⟩

/-- A requested slide is kept iff it is present in the slide-text map
and non-empty after trimming. -/
def slideKept (m : List (Nat × Str)) (n : Nat) : Bool :=
  match lookupSlide m n with
  | some t => decide (rsTrim t ≠ [])
  | none => false

theorem slideSection_of_dropped {m : List (Nat × Str)} {n : Nat}
    (h : slideKept m n = false) : slideSection m n = [] := by
  unfold slideKept at h
  unfold slideSection
  cases hl : lookupSlide m n with
  | none => rfl
  | some t =>
    rw [hl] at h
    simp only [decide_eq_false_iff_not, Decidable.not_not] at h
    dsimp only
    rw [if_neg (by simp [h])]

theorem slideSection_of_kept {m : List (Nat × Str)} {n : Nat} {t : Str}
    (hl : lookupSlide m n = some t) (ht : rsTrim t ≠ []) :
    slideSection m n = str "## Slide " ++ (Nat.repr n).data ++ str "\n\n" ++ t ++ str "\n\n" := by
  unfold slideSection
  rw [hl]
  dsimp only
  rw [if_pos ht]

theorem slidesMarkdown_filter_kept (m : List (Nat × Str)) (ns : List Nat) :
    slidesMarkdown m ns = slidesMarkdown m (ns.filter (slideKept m)) := by
  induction ns with
  | nil => rfl
  | cons n t ih =>
    by_cases h : slideKept m n = true
    · unfold slidesMarkdown at ih ⊢
      rw [List.filter_cons_of_pos h]
      simp only [List.map_cons, List.flatten_cons]
      rw [ih]
    · unfold slidesMarkdown at ih ⊢
      rw [List.filter_cons_of_neg (by simpa using h)]
      simp only [List.map_cons, List.flatten_cons]
      rw [slideSection_of_dropped (by simpa using h)]
      simpa using ih

/-- C10.  Slide-specific PowerPoint extraction: the produced markdown
is the file header followed by one "## Slide N" section per requested
slide, where a slide missing from the slide-text map or empty after
trimming contributes nothing (so the output equals the output for the
kept slides only); each kept requested slide's full section appears in
the output; the call returns `Ok` whenever the manual extraction
succeeded; and `process_powerpoint_with_slides` on that path returns
every parsed requested index in `returned_slides` with no error. -/
theorem C10_slide_specific_extraction (file_name : Str) (m : List (Nat × Str))
    (all_text : Str) (ns : List Nat) :
    (extract_powerpoint_slides file_name (.ok (all_text, m)) ns =
      .ok (fileHeader file_name ++ slidesMarkdown m ns)) ∧
    (slidesMarkdown m ns = slidesMarkdown m (ns.filter (slideKept m))) ∧
    (∀ n ∈ ns, ∀ t, lookupSlide m n = some t → rsTrim t ≠ [] →
      (str "## Slide " ++ (Nat.repr n).data ++ str "\n\n" ++ t ++ str "\n\n") <:+:
        slidesMarkdown m ns) ∧
    (∀ (env : PptEnv) (fp : Str) (slides0 : Option Str) (cache : PowerPointCache)
        (total : Nat) (ext0 : Str),
      validate_file_path env.fileExists env.extension fp = .ok ext0 →
      env.getOrCache = .ok cache →
      cache.total_slides = some total →
      env.manualExtract = .ok (all_text, m) →
      env.fileName = file_name →
      parse_pages_parameter (slides0.getD (str "all")) total = .ok ns →
      ns.length ≠ total →
      process_powerpoint_with_slides env fp slides0 =
        .mkSuccess (fileHeader file_name ++ slidesMarkdown m ns) (some total)
          (slides0.getD (str "all")) ns fp cache.slide_texts) := by
  refine ⟨rfl, slidesMarkdown_filter_kept m ns, ?_, ?_⟩
  · intro n hn t hl ht
    have hsec := slideSection_of_kept hl ht
    have hmem : slideSection m n ∈ ns.map (slideSection m) := List.mem_map_of_mem _ hn
    rw [hsec] at hmem
    exact List.infix_of_mem_flatten hmem
  · intro env fp slides0 cache total ext0 hv hc htot hm hfn hp hlen
    unfold process_powerpoint_with_slides
    rw [hv]
    dsimp only
    rw [hc]
    dsimp only
    rw [htot]
    simp only [Option.getD_some]
    rw [hp]
    dsimp only
    rw [if_neg hlen]
    unfold cacheManagerExtractUnits
    rw [htot]
    dsimp only
    unfold extract_powerpoint_slides
    rw [hm, hfn]

/-- Witness for C10 at a concrete deck: slide 1 has text, slide 2 is
whitespace-only, slide 3 is absent from the map; all three are
requested. -/
theorem C10_slide_specific_extraction_witness :
    (extract_powerpoint_slides (str "deck.pptx")
      (.ok (str "", [(1, str "Hello"), (2, str "  ")])) [1, 2, 3] =
      .ok (fileHeader (str "deck.pptx") ++
        slidesMarkdown [(1, str "Hello"), (2, str "  ")] [1, 2, 3])) ∧
    (slidesMarkdown [(1, str "Hello"), (2, str "  ")] [1, 2, 3] =
      slidesMarkdown [(1, str "Hello"), (2, str "  ")]
        ([1, 2, 3].filter (slideKept [(1, str "Hello"), (2, str "  ")]))) ∧
    ((str "## Slide " ++ (Nat.repr 1).data ++ str "\n\n" ++ str "Hello" ++ str "\n\n") <:+:
      slidesMarkdown [(1, str "Hello"), (2, str "  ")] [1, 2, 3]) ∧
    (process_powerpoint_with_slides
      ⟨true, some (str "pptx"),
        .ok ⟨str "c", [0], some 4, [(1, str "Hello"), (2, str "  ")]⟩,
        .ok (str "", [(1, str "Hello"), (2, str "  ")]), str "deck.pptx"⟩
      (str "/d/deck.pptx") (some (str "1-3,2")) =
      .mkSuccess
        (fileHeader (str "deck.pptx") ++
          slidesMarkdown [(1, str "Hello"), (2, str "  ")] [1, 2, 3])
        (some 4) (str "1-3,2") [1, 2, 3] (str "/d/deck.pptx")
        [(1, str "Hello"), (2, str "  ")]) := by
  refine ⟨?_, ?_, ?_, ?_⟩
  · exact (C10_slide_specific_extraction (str "deck.pptx") [(1, str "Hello"), (2, str "  ")]
      (str "") [1, 2, 3]).1
  · exact (C10_slide_specific_extraction (str "deck.pptx") [(1, str "Hello"), (2, str "  ")]
      (str "") [1, 2, 3]).2.1
  · exact (C10_slide_specific_extraction (str "deck.pptx") [(1, str "Hello"), (2, str "  ")]
      (str "") [1, 2, 3]).2.2.1 1 (by decide) (str "Hello") (by decide) (by decide)
  · refine (C10_slide_specific_extraction (str "deck.pptx") [(1, str "Hello"), (2, str "  ")]
      (str "") [1, 2, 3]).2.2.2
      ⟨true, some (str "pptx"),
        .ok ⟨str "c", [0], some 4, [(1, str "Hello"), (2, str "  ")]⟩,
        .ok (str "", [(1, str "Hello"), (2, str "  ")]), str "deck.pptx"⟩
      (str "/d/deck.pptx") (some (str "1-3,2"))
      ⟨str "c", [0], some 4, [(1, str "Hello"), (2, str "  ")]⟩ 4 (str "pptx")
      (by decide) rfl rfl rfl rfl (by decide) (by decide)

end OfficeReader
